import Mathlib

/-!
Verification of the ii-telegram-agent core subsystems against their
natural-language specification.

The Python source is shallowly embedded: pure functions become Lean
functions, stateful components (the approval manager, the scheduler, the
agent loop) become explicit state-passing functions, asynchronous effects
(LLM gateway calls, tool execution outcomes, approval-event waits, uuid
generation, wall-clock reads) become explicit parameters or oracles, and
raised exceptions become `Except.error` values.  Wall-clock instants are
modelled as natural numbers (seconds).
-/

namespace IIAgent

/-! ## Python-style primitive helpers -/

/-- Model of the Python slice `s[:n]` on a string. -/
def pyTake (s : String) (n : Nat) : String :=
  ⟨s.data.take n⟩

/-- Check whether one list starts with another (used to model substring search). -/
def listStartsWith : List Char → List Char → Bool
  | _, [] => true
  | [], _ :: _ => false
  | a :: as, b :: bs => a == b && listStartsWith as bs

/-- Check whether `pat` occurs as a contiguous subsequence of the list. -/
def listContainsSeq (pat : List Char) : List Char → Bool
  | [] => listStartsWith [] pat
  | c :: rest => listStartsWith (c :: rest) pat || listContainsSeq pat rest

/-- Model of the Python membership test `pat in s` on strings. -/
def strContains (s pat : String) : Bool :=
  listContainsSeq pat.data s.data

/-- Model of the truthiness of Python `s.strip()`: true iff some character is
not whitespace. -/
def stripTruthy (s : String) : Bool :=
  s.data.any (fun c => !c.isWhitespace)

/-- Model of Python `s.lower()`, mapping `Char.toLower` over the characters. -/
def strToLower (s : String) : String :=
  ⟨s.data.map Char.toLower⟩

/-- Model of the Python slice `l[-k:]` (for `k = 0` Python yields the whole
list because `-0 == 0`). -/
def pyTail {α : Type} (l : List α) (k : Nat) : List α :=
  if k = 0 then l else l.drop (l.length - k)

/-- Model of the Python slice `l[:-k]` (for `k = 0` Python yields the empty
list because `-0 == 0`). -/
def pyDropTail {α : Type} (l : List α) (k : Nat) : List α :=
  if k = 0 then [] else l.take (l.length - k)

/-- Model of a Python f-string rendering of an `Optional[str]`: `None` renders
as the literal text `None`. -/
def pyStr : Option String → String
  | none => "None"
  | some s => s

/-! ## Association lists (Python `dict` with string keys)

Python dictionaries preserve insertion order; we model them as association
lists, with update-in-place for existing keys and append for new keys. -/

/-- Dictionary lookup `d.get(key)`. -/
def lookupA {α : Type} : List (String × α) → String → Option α
  | [], _ => none
  | (k, v) :: rest, key => if k = key then some v else lookupA rest key

/-- Dictionary assignment `d[key] = v`: replaces in place when the key is
present, appends otherwise. -/
def dictSet {α : Type} (l : List (String × α)) (key : String) (v : α) :
    List (String × α) :=
  if (lookupA l key).isSome then
    l.map (fun p => if p.1 = key then (key, v) else p)
  else l ++ [(key, v)]

/-- Dictionary removal `d.pop(key, None)`. -/
def dictRemove {α : Type} (l : List (String × α)) (key : String) :
    List (String × α) :=
  l.filter (fun p => decide (p.1 ≠ key))

/-! ## LLM data model (`llm/base.py`) -/

/-- A tool call made by the LLM (`ToolCall` in `llm/base.py`).  Argument
values are modelled as strings. -/
structure ToolCall where
  id : String
  name : String
  arguments : List (String × String)
deriving Repr, DecidableEq

/-- A message in the conversation (`LLMMessage` in `llm/base.py`). -/
structure LLMMessage where
  role : String
  content : String
  tool_calls : Option (List ToolCall) := none
  tool_call_id : Option String := none
  name : Option String := none
deriving Repr, DecidableEq

/-- Response from an LLM (`LLMResponse` in `llm/base.py`); only the fields the
agent loop reads are modelled. -/
structure LLMResponse where
  content : String
  tool_calls : List ToolCall := []
deriving Repr, DecidableEq

/-- Python truthiness of the `tool_calls` field (`if message.tool_calls:`):
not `None` and non-empty. -/
def LLMMessage.hasToolCalls (m : LLMMessage) : Bool :=
  !(m.tool_calls.getD []).isEmpty

/-! ## Conversation compaction (`agent/compaction.py`) -/

/-- Model of `CHARS_PER_TOKEN` constant. -/
def CHARS_PER_TOKEN : Nat := 4

/-- Model of `CompactionConfig`; the threshold fraction is modelled as an exact
rational. -/
structure CompactionConfig where
  max_context_tokens : Nat := 100000
  compaction_threshold : ℚ := { num := 7, den := 10 }
  keep_recent_messages : Nat := 10
  preserve_tool_results : Bool := true
  preserve_memories : Bool := true
  enabled : Bool := true

/-- Model of `CompactionResult`. -/
structure CompactionResult where
  original_message_count : Nat
  compacted_message_count : Nat
  summary : String
  tokens_saved_estimate : Int
  success : Bool
  error : Option String := none
deriving Repr, DecidableEq

/-- Model of `estimate_tokens`: character sum plus a 20-char-per-message overhead,
divided by `CHARS_PER_TOKEN` (Python `//`). -/
def estimate_tokens (messages : List LLMMessage) : Nat :=
  let total_chars := (messages.map (fun m => m.content.length)).sum
  let overhead := messages.length * 20
  (total_chars + overhead) / CHARS_PER_TOKEN

/-- Keyword markers for stated facts in `_classify_message_importance`. -/
def factMarkers : List String :=
  ["remember", "important", "my name", "my email", "password",
   "api key", "deadline", "meeting", "address", "phone"]

/-- Model of `_classify_message_importance`: deterministic importance score clamped to
`[0, 10]`. -/
def classify_message_importance (message : LLMMessage) : Int :=
  let content_lower := strToLower message.content
  let score : Int := 5
  let score := if message.role == "tool" then score + 2 else score
  let score := if message.hasToolCalls then score + 2 else score
  let score := if factMarkers.any (fun marker => strContains content_lower marker)
    then score + 3 else score
  let score := if strContains content_lower "error" || strContains content_lower "failed"
    then score + 1 else score
  let score := if message.content.length < 20 then score - 2 else score
  let score := if message.content.length > 1000 then score + 1 else score
  max 0 (min 10 score)

/-- Fact-assertion phrases in `_extract_key_facts`. -/
def factPhrases : List String :=
  ["my name is", "i work", "i live", "i prefer",
   "remember that", "don\x27t forget", "important:"]

/-- Model of `_extract_key_facts`: tool-output previews and fact-stating user messages,
capped at 10. -/
def extract_key_facts (messages : List LLMMessage) : List String :=
  let facts := messages.foldl (fun facts msg =>
    let facts :=
      if msg.role == "tool" && stripTruthy msg.content then
        let preview := pyTake msg.content 200
        if stripTruthy preview then facts ++ ["[Tool result]: " ++ preview] else facts
      else facts
    let facts :=
      if msg.role == "user" &&
          factPhrases.any (fun phrase => strContains (strToLower msg.content) phrase) then
        facts ++ ["[User stated]: " ++ pyTake msg.content 200]
      else facts
    facts) []
  facts.take 10

/-- Model of `_fallback_summary`: deterministic summary used when the LLM summarizer
raises. -/
def fallback_summary (messages : List LLMMessage) (key_facts : List String) :
    String :=
  let parts := ["Earlier in this conversation:"]
  let parts := if !key_facts.isEmpty then
      parts ++ ["\nKey information:"] ++ key_facts.map (fun fact => "  - " ++ fact)
    else parts
  let user_count := (messages.filter (fun m => m.role == "user")).length
  let assistant_count := (messages.filter (fun m => m.role == "assistant")).length
  let tool_count := (messages.filter (fun m => m.role == "tool")).length
  let parts := parts ++ ["\n[" ++ toString user_count ++ " user messages, "
    ++ toString assistant_count ++ " assistant responses, "
    ++ toString tool_count ++ " tool calls summarized]"]
  let user_messages := messages.filter (fun m => m.role == "user")
  let parts := match user_messages with
    | [] => parts
    | first :: rest =>
      let parts := parts ++ ["\nFirst topic: " ++ pyTake first.content 150]
      if !rest.isEmpty then
        parts ++ ["Last topic before this: "
          ++ pyTake (user_messages.getLastD first).content 150]
      else parts
  String.intercalate "\n" parts

/-- The no-compaction result returned on the early-exit paths of
`compact_conversation`. -/
def noopResult (messages : List LLMMessage) : CompactionResult :=
  { original_message_count := messages.length
    compacted_message_count := messages.length
    summary := ""
    tokens_saved_estimate := 0
    success := true }

/-- The threshold token count `int(max_context_tokens * compaction_threshold)`.
Since `max_context_tokens * (num / den) = max_context_tokens * num / den`
exactly, Python `int()` truncation equals this integer division for the
non-negative fractions in use. -/
def thresholdTokens (config : CompactionConfig) : Nat :=
  ((config.compaction_threshold.num * (config.max_context_tokens : Int))
    / (config.compaction_threshold.den : Int)).toNat

/-- Model of `compact_conversation`.  The asynchronous `_generate_summary` gateway call
is abstracted by `llmSummary`: `some s` means the gateway produced stripped
summary text `s`, `none` means it raised and the deterministic
`fallback_summary` is used. -/
def compact_conversation (llmSummary : Option String)
    (messages : List LLMMessage) (config : CompactionConfig) :
    List LLMMessage × CompactionResult :=
  if !config.enabled then (messages, noopResult messages)
  else
    let current_tokens := estimate_tokens messages
    if current_tokens < thresholdTokens config then (messages, noopResult messages)
    else
      let keep_count := min (config.keep_recent_messages * 2) messages.length
      let older_messages :=
        if keep_count < messages.length then pyDropTail messages keep_count else []
      let recent_messages := pyTail messages keep_count
      if older_messages.isEmpty then (messages, noopResult messages)
      else
        let key_facts := extract_key_facts older_messages
        let part := older_messages.partition
          (fun msg => 8 ≤ classify_message_importance msg)
        let preserved_messages := part.1
        let to_summarize := part.2
        let summary := match llmSummary with
          | some s => s
          | none => fallback_summary to_summarize key_facts
        let summary_message : LLMMessage :=
          { role := "user", content := "[Previous conversation summary]: " ++ summary }
        let summary_ack : LLMMessage :=
          { role := "assistant"
            content := "I\x27ve noted the conversation context. Let me continue helping you with that in mind." }
        let compacted := [summary_message, summary_ack] ++ preserved_messages ++ recent_messages
        let tokens_saved : Int := (current_tokens : Int) - (estimate_tokens compacted : Int)
        (compacted,
          { original_message_count := messages.length
            compacted_message_count := compacted.length
            summary := pyTake summary 500
            tokens_saved_estimate := max 0 tokens_saved
            success := true })

/-- Modelled from the spec: checker for invariant I1 at one position — a
tool-role message must have a strictly earlier assistant message whose
`tool_calls` contains an entry with its `tool_call_id`. -/
def references_ok (before : List LLMMessage) (m : LLMMessage) : Bool :=
  m.role != "tool" ||
    (match m.tool_call_id with
     | none => true
     | some cid => before.any (fun a =>
         a.role == "assistant" && (a.tool_calls.getD []).any (fun c => c.id == cid)))

/-- Modelled from the spec: invariant I1 over a whole conversation log. -/
def no_dangling (before : List LLMMessage) : List LLMMessage → Bool
  | [] => true
  | m :: rest => references_ok before m && no_dangling (before ++ [m]) rest

/-- A four-message log whose first entry is an assistant message carrying a
tool call and whose second entry is the matching tool-result message. -/
def c1_messages : List LLMMessage :=
  [{ role := "assistant", content := "",
     tool_calls := some [{ id := "t1", name := "run_command", arguments := [] }] },
   { role := "tool", content := "error: command failed badly",
     tool_call_id := some "t1", name := some "run_command" },
   { role := "user", content := "a" },
   { role := "assistant", content := "b" }]

/-- A compaction configuration that triggers compaction on `c1_messages` and
keeps the last two messages. -/
def c1_config : CompactionConfig :=
  { max_context_tokens := 10, compaction_threshold := { num := 1, den := 2 },
    keep_recent_messages := 1 }

/-- A conversation and configuration used to instantiate the compaction
suffix theorem. -/
def c4_messages : List LLMMessage :=
  [{ role := "user", content := "hello there" },
   { role := "assistant", content := "hi" },
   { role := "user", content := "ok" }]

/-- A compaction configuration that triggers compaction on `c4_messages`. -/
def c4_config : CompactionConfig :=
  { max_context_tokens := 10, compaction_threshold := { num := 1, den := 2 },
    keep_recent_messages := 1 }


/-! ## Exec-approval gate (`tools/exec_approval.py`) -/

/-- Model of `RiskLevel` risk classification. -/
inductive RiskLevel
  | safe
  | moderate
  | dangerous
deriving Repr, DecidableEq

/-- Model of `DEFAULT_RISK_MAP`: default risk classification for known tools. -/
def DEFAULT_RISK_MAP : List (String × RiskLevel) :=
  [("web_search", RiskLevel.safe),
   ("browse_webpage", RiskLevel.safe),
   ("recall", RiskLevel.safe),
   ("remember", RiskLevel.safe),
   ("list_files", RiskLevel.safe),
   ("search_files", RiskLevel.safe),
   ("list_reminders", RiskLevel.safe),
   ("list_allowed_commands", RiskLevel.safe),
   ("system_info", RiskLevel.safe),
   ("get_calendar", RiskLevel.safe),
   ("today_schedule", RiskLevel.safe),
   ("check_email", RiskLevel.safe),
   ("inbox_summary", RiskLevel.safe),
   ("execute_code", RiskLevel.moderate),
   ("read_file", RiskLevel.moderate),
   ("set_reminder", RiskLevel.moderate),
   ("cancel_reminder", RiskLevel.moderate),
   ("add_cron_task", RiskLevel.moderate),
   ("setup_daily_briefing", RiskLevel.moderate),
   ("create_event", RiskLevel.moderate),
   ("run_command", RiskLevel.dangerous),
   ("write_file", RiskLevel.dangerous),
   ("send_email", RiskLevel.dangerous),
   ("write_skill", RiskLevel.dangerous)]

/-- Model of `PendingApproval`: a tool execution waiting for user approval.
Timestamps are seconds; `expires_at` is created_at + 5 minutes. -/
structure PendingApproval where
  id : String
  tool_name : String
  arguments : List (String × String)
  risk_level : RiskLevel
  description : String
  created_at : Nat
  expires_at : Nat
  approved : Bool := false
  denied : Bool := false
deriving Repr, DecidableEq

/-- Model of `PendingApproval.is_expired`, evaluated at wall-clock instant `now`. -/
def PendingApproval.is_expired (a : PendingApproval) (now : Nat) : Bool :=
  decide (a.expires_at < now)

/-- Model of `PendingApproval.is_pending`, evaluated at wall-clock instant `now`. -/
def PendingApproval.is_pending (a : PendingApproval) (now : Nat) : Bool :=
  !a.approved && !a.denied && !(a.is_expired now)

/-- Model of `ApprovalManager` state: the risk map, the `_pending` dict, and the
`_approval_events` dict (`true` = the asyncio event has been set). -/
structure ApprovalManager where
  risk_map : List (String × RiskLevel) := DEFAULT_RISK_MAP
  pending : List (String × PendingApproval) := []
  approval_events : List (String × Bool) := []
  approval_required : Bool := true
  auto_approve_for_admins : Bool := true

/-- Model of `ApprovalManager.get_risk_level`: unknown tools default to moderate. -/
def ApprovalManager.get_risk_level (m : ApprovalManager) (tool_name : String) :
    RiskLevel :=
  (lookupA m.risk_map tool_name).getD RiskLevel.moderate

/-- Model of `ApprovalManager.needs_approval`: global flag enabled and risk dangerous. -/
def ApprovalManager.needs_approval (m : ApprovalManager) (tool_name : String) :
    Bool :=
  if !m.approval_required then false
  else m.get_risk_level tool_name == RiskLevel.dangerous

/-- Model of `ApprovalManager.create_approval_request`.  The uuid-derived 8-character id
is supplied by the caller as `approval_id`; `now` is the creation instant. -/
def ApprovalManager.create_approval_request (m : ApprovalManager)
    (approval_id : String) (tool_name : String)
    (arguments : List (String × String)) (description : String) (now : Nat) :
    ApprovalManager × PendingApproval :=
  let description :=
    if description == "" then "Execute `" ++ tool_name ++ "` with given arguments"
    else description
  let approval : PendingApproval :=
    { id := approval_id
      tool_name := tool_name
      arguments := arguments
      risk_level := m.get_risk_level tool_name
      description := description
      created_at := now
      expires_at := now + 300 }
  ({ m with
      pending := dictSet m.pending approval_id approval
      approval_events := dictSet m.approval_events approval_id false },
   approval)

/-- Model of `ApprovalManager.approve`: terminal transition; returns false on unknown
ids or non-pending requests. -/
def ApprovalManager.approve (m : ApprovalManager) (approval_id : String)
    (now : Nat) : ApprovalManager × Bool :=
  match lookupA m.pending approval_id with
  | none => (m, false)
  | some approval =>
    if !(approval.is_pending now) then (m, false)
    else
      let approval2 := { approval with approved := true }
      let m2 := { m with pending := dictSet m.pending approval_id approval2 }
      let m3 :=
        if (lookupA m2.approval_events approval_id).isSome then
          { m2 with approval_events := dictSet m2.approval_events approval_id true }
        else m2
      (m3, true)

/-- Model of `ApprovalManager.deny`: terminal transition; returns false on unknown ids
or non-pending requests. -/
def ApprovalManager.deny (m : ApprovalManager) (approval_id : String)
    (now : Nat) : ApprovalManager × Bool :=
  match lookupA m.pending approval_id with
  | none => (m, false)
  | some approval =>
    if !(approval.is_pending now) then (m, false)
    else
      let approval2 := { approval with denied := true }
      let m2 := { m with pending := dictSet m.pending approval_id approval2 }
      let m3 :=
        if (lookupA m2.approval_events approval_id).isSome then
          { m2 with approval_events := dictSet m2.approval_events approval_id true }
        else m2
      (m3, true)

/-- Model of `ApprovalManager.wait_for_approval`.  The asynchronous
`asyncio.wait_for(event.wait(), timeout)` is abstracted by `event_fires`: true
means the per-id event is (or becomes) set before the timeout, false means the
wait times out. -/
def ApprovalManager.wait_for_approval (m : ApprovalManager)
    (approval_id : String) (event_fires : Bool) : Bool :=
  match lookupA m.approval_events approval_id with
  | none => false
  | some _ =>
    if !event_fires then false
    else
      match lookupA m.pending approval_id with
      | none => false
      | some approval => approval.approved

/-- Model of `ApprovalManager.get_pending`. -/
def ApprovalManager.get_pending (m : ApprovalManager) (approval_id : String) :
    Option PendingApproval :=
  lookupA m.pending approval_id

/-- Model of `ApprovalManager._cleanup_expired`: removes every record that is expired,
approved or denied, together with its completion event. -/
def ApprovalManager.cleanup_expired (m : ApprovalManager) (now : Nat) :
    ApprovalManager :=
  let expired := (m.pending.filter (fun p =>
    p.2.is_expired now || p.2.approved || p.2.denied)).map Prod.fst
  { m with
      pending := m.pending.filter (fun p => !(expired.contains p.1))
      approval_events := m.approval_events.filter (fun p => !(expired.contains p.1)) }

/-- Model of `ApprovalManager.list_pending`: lazy sweep of terminal records, then a
snapshot of the pending ones.  Returns the mutated manager and the snapshot. -/
def ApprovalManager.list_pending (m : ApprovalManager) (now : Nat) :
    ApprovalManager × List PendingApproval :=
  let m2 := m.cleanup_expired now
  (m2, (m2.pending.map Prod.snd).filter (fun a => a.is_pending now))

/-- A pending (not yet terminal) approval record used in the C5 witness. -/
def w5_approval : PendingApproval :=
  { id := "a1", tool_name := "run_command", arguments := [("command", "ls")],
    risk_level := RiskLevel.dangerous, description := "d",
    created_at := 0, expires_at := 300 }

/-- An approval-manager state holding `w5_approval` as pending. -/
def w5_mgr : ApprovalManager :=
  { pending := [("a1", w5_approval)], approval_events := [("a1", false)] }

/-- An already-approved (terminal) approval record used in the C10 witness. -/
def w10_approval : PendingApproval :=
  { id := "b2", tool_name := "send_email", arguments := [],
    risk_level := RiskLevel.dangerous, description := "d",
    created_at := 0, expires_at := 300, approved := true }

/-- An approval-manager state holding the terminal `w10_approval`. -/
def w10_mgr : ApprovalManager :=
  { pending := [("b2", w10_approval)], approval_events := [("b2", true)] }


/-! ## Tool registry (`tools/registry.py`, `tools/base.py`) -/

/-- Model of `ToolResult` (`tools/base.py`); the opaque `data` field is omitted. -/
structure ToolResult where
  success : Bool
  output : String := ""
  error : Option String := none
deriving Repr, DecidableEq

/-- A registered tool\x27s executable behaviour: its `async execute` function,
with a raised exception modelled as `Except.error` carrying `str(e)`. -/
def ToolExec : Type := List (String × String) → Except String ToolResult

/-- Model of `ToolRegistry`: name-indexed collection of tools. -/
structure ToolRegistry where
  tools : List (String × ToolExec) := []

/-- Model of `ToolRegistry.get`. -/
def ToolRegistry.get (r : ToolRegistry) (name : String) : Option ToolExec :=
  lookupA r.tools name

/-- Model of `ToolRegistry.register`: same name replaces. -/
def ToolRegistry.register (r : ToolRegistry) (name : String) (tool : ToolExec) :
    ToolRegistry :=
  { tools := dictSet r.tools name tool }

/-- Model of `ToolRegistry.execute`.  This Lean function is total: an unknown name and
a raising tool are both converted to failed `ToolResult`s — the totality of
the function is the never-raises guarantee of the registry. -/
def ToolRegistry.execute (r : ToolRegistry) (name : String)
    (arguments : List (String × String)) : ToolResult :=
  match r.get name with
  | none =>
    { success := false, output := ""
      error := some ("Tool \x27" ++ name ++ "\x27 not found") }
  | some tool =>
    match tool arguments with
    | Except.ok result => result
    | Except.error e => { success := false, output := "", error := some e }

/-- A registry holding one succeeding tool and one raising tool, used in the
C7 witness. -/
def w7_reg : ToolRegistry :=
  { tools :=
      [("ok_tool", fun _ => Except.ok { success := true, output := "fine" }),
       ("bad_tool", fun _ => Except.error "boom")] }

/-! ## Scheduler (`scheduler/scheduler.py`) -/

/-- Model of `TaskType`. -/
inductive TaskType
  | cron
  | one_time
  | heartbeat
  | reminder
  | daily_briefing
deriving Repr, DecidableEq

/-- The `.value` string of a `TaskType`. -/
def TaskType.value : TaskType → String
  | .cron => "cron"
  | .one_time => "one_time"
  | .heartbeat => "heartbeat"
  | .reminder => "reminder"
  | .daily_briefing => "daily_briefing"

/-- Model of `ScheduledTask`.  Wall-clock datetimes are modelled as natural-number
timestamps; the opaque `metadata` dict is omitted. -/
structure ScheduledTask where
  id : String
  name : String
  task_type : TaskType
  message : String
  cron_expression : Option String := none
  scheduled_time : Option Nat := none
  active_hours : Option (Nat × Nat) := none
  enabled : Bool := true
  last_run : Option Nat := none
  next_run : Option Nat := none
deriving Repr, DecidableEq

/-- Python truthiness of the optional `cron_expression` field (an empty string
is falsy). -/
def cronTruthy : Option String → Bool
  | none => false
  | some s => !(s == "")

/-- Model of `ScheduledTask.__post_init__`: derives `next_run` from the cron expression
or the scheduled time.  `calc_next` abstracts the croniter-based
`_calculate_next_run`. -/
def ScheduledTask.post_init (calc_next : ScheduledTask → Option Nat)
    (t : ScheduledTask) : ScheduledTask :=
  if cronTruthy t.cron_expression && t.next_run.isNone then
    { t with next_run := calc_next t }
  else if t.scheduled_time.isSome && t.next_run.isNone then
    { t with next_run := t.scheduled_time }
  else t

/-- Model of `ScheduledTask.should_run`, evaluated at instant `now` whose local hour is
`nowHour`. -/
def ScheduledTask.should_run (task : ScheduledTask) (now nowHour : Nat) : Bool :=
  if !task.enabled then false
  else
    match task.next_run with
    | none => false
    | some nr =>
      match task.active_hours with
      | some (start_hour, end_hour) =>
        if !(start_hour ≤ nowHour && nowHour < end_hour) then false
        else decide (nr ≤ now)
      | none => decide (nr ≤ now)

/-- Model of `ScheduledTask.mark_completed`: sets `last_run`, disables one-time and
reminder tasks, recomputes `next_run` for cron-bearing tasks. -/
def ScheduledTask.mark_completed (calc_next : ScheduledTask → Option Nat)
    (task : ScheduledTask) (now : Nat) : ScheduledTask :=
  let task := { task with last_run := some now }
  if task.task_type == TaskType.one_time || task.task_type == TaskType.reminder then
    { task with enabled := false, next_run := none }
  else if cronTruthy task.cron_expression then
    { task with next_run := calc_next task }
  else task

/-- A filesystem effect emitted by persistence code. -/
inductive FsOp
  | write (path : String) (content : String)
  | rename (src dst : String)
deriving Repr, DecidableEq

/-- The scheduler\x27s task file path. -/
def tasks_file : String := "scheduled_tasks.json"

/-- JSON rendering of an optional string field. -/
def jsonOptStr : Option String → String
  | none => "null"
  | some s => "\"" ++ s ++ "\""

/-- JSON rendering of an optional timestamp field (`isoformat` is abstracted
to the numeric timestamp). -/
def jsonOptNat : Option Nat → String
  | none => "null"
  | some n => toString n

/-- JSON rendering of a bool field. -/
def jsonBool : Bool → String
  | true => "true"
  | false => "false"

/-- JSON rendering of the optional `active_hours` pair. -/
def jsonActive : Option (Nat × Nat) → String
  | none => "null"
  | some (a, b) => "[" ++ toString a ++ ", " ++ toString b ++ "]"

/-- Model of `ScheduledTask.to_dict` composed with JSON rendering. -/
def ScheduledTask.to_json (t : ScheduledTask) : String :=
  "\x7b\"id\": \"" ++ t.id ++ "\", \"name\": \"" ++ t.name
    ++ "\", \"task_type\": \"" ++ t.task_type.value
    ++ "\", \"message\": \"" ++ t.message
    ++ "\", \"cron_expression\": " ++ jsonOptStr t.cron_expression
    ++ ", \"scheduled_time\": " ++ jsonOptNat t.scheduled_time
    ++ ", \"active_hours\": " ++ jsonActive t.active_hours
    ++ ", \"enabled\": " ++ jsonBool t.enabled
    ++ ", \"last_run\": " ++ jsonOptNat t.last_run
    ++ ", \"next_run\": " ++ jsonOptNat t.next_run ++ "\x7d"

/-- The JSON document written by `_save_tasks`. -/
def dumps_tasks (tasks : List (String × ScheduledTask)) (now : Nat) : String :=
  "\x7b\"tasks\": ["
    ++ String.intercalate ", " (tasks.map (fun p => p.2.to_json))
    ++ "], \"updated_at\": " ++ jsonOptNat (some now) ++ "\x7d"

/-- Model of `Scheduler._save_tasks` as a filesystem-effect trace: a single direct
`write_text` of the whole document to the tasks file. -/
def save_tasks (tasks : List (String × ScheduledTask)) (now : Nat) : List FsOp :=
  [FsOp.write tasks_file (dumps_tasks tasks now)]

/-- Model of `Scheduler` state: the in-memory task map. -/
structure Scheduler where
  tasks : List (String × ScheduledTask) := []

/-- Model of `Scheduler.add_cron_task`.  The uuid-derived id is supplied as `task_id`;
returns the new state, the filesystem trace, and the created task. -/
def Scheduler.add_cron_task (s : Scheduler)
    (calc_next : ScheduledTask → Option Nat) (task_id name message
    cron_expression : String) (active_hours : Option (Nat × Nat)) (now : Nat) :
    Scheduler × List FsOp × ScheduledTask :=
  let task := ScheduledTask.post_init calc_next
    { id := task_id, name := name, task_type := TaskType.cron, message := message
      cron_expression := some cron_expression, active_hours := active_hours }
  let tasks2 := dictSet s.tasks task.id task
  ({ tasks := tasks2 }, save_tasks tasks2 now, task)

/-- Model of `Scheduler.add_one_time_task`. -/
def Scheduler.add_one_time_task (s : Scheduler)
    (calc_next : ScheduledTask → Option Nat) (task_id name message : String)
    (scheduled_time : Nat) (now : Nat) :
    Scheduler × List FsOp × ScheduledTask :=
  let task := ScheduledTask.post_init calc_next
    { id := task_id, name := name, task_type := TaskType.one_time
      message := message, scheduled_time := some scheduled_time }
  let tasks2 := dictSet s.tasks task.id task
  ({ tasks := tasks2 }, save_tasks tasks2 now, task)

/-- Model of `Scheduler.add_reminder`: fires after `delay` seconds. -/
def Scheduler.add_reminder (s : Scheduler)
    (calc_next : ScheduledTask → Option Nat) (task_id message : String)
    (delay : Nat) (reminder_name : Option String) (now : Nat) :
    Scheduler × List FsOp × ScheduledTask :=
  let scheduled_time := now + delay
  let task := ScheduledTask.post_init calc_next
    { id := task_id
      name := match reminder_name with
        | some n => n
        | none => "Reminder: " ++ pyTake message 30 ++ "..."
      task_type := TaskType.reminder, message := message
      scheduled_time := some scheduled_time }
  let tasks2 := dictSet s.tasks task.id task
  ({ tasks := tasks2 }, save_tasks tasks2 now, task)

/-- Model of `Scheduler.remove_task`. -/
def Scheduler.remove_task (s : Scheduler) (task_id : String) (now : Nat) :
    Scheduler × List FsOp × Bool :=
  if (lookupA s.tasks task_id).isSome then
    let tasks2 := dictRemove s.tasks task_id
    ({ tasks := tasks2 }, save_tasks tasks2 now, true)
  else (s, [], false)

/-- Events observable during one scheduler tick: callback invocations (with
`some e` when the callback raised) and `_save_tasks` calls carrying the map
they serialize. -/
inductive SchedEvent
  | callback_run (task : ScheduledTask) (raised : Option String)
  | saved (tasks : List (String × ScheduledTask))
deriving DecidableEq

/-- The per-due-task body of `Scheduler._run_loop`: run the callback if one is
installed (exceptions are caught and logged only), mark the task completed,
persist the whole map. -/
def process_due (calc_next : ScheduledTask → Option Nat)
    (cb : ScheduledTask → Option String) (has_callback : Bool) (now : Nat) :
    List ScheduledTask → List (String × ScheduledTask) →
      List (String × ScheduledTask) × List SchedEvent
  | [], tasks => (tasks, [])
  | task :: rest, tasks =>
    let evs1 := if has_callback then [SchedEvent.callback_run task (cb task)] else []
    let task2 := ScheduledTask.mark_completed calc_next task now
    let tasks2 := dictSet tasks task.id task2
    let r := process_due calc_next cb has_callback now rest tasks2
    (r.1, evs1 ++ [SchedEvent.saved tasks2] ++ r.2)

/-- Model of `Scheduler.get_due_tasks`. -/
def Scheduler.get_due_tasks (s : Scheduler) (now nowHour : Nat) :
    List ScheduledTask :=
  (s.tasks.map Prod.snd).filter (fun t => t.should_run now nowHour)

/-- One pass of the `Scheduler._run_loop` body (one tick): process every due
task in order. -/
def Scheduler.run_tick (s : Scheduler) (calc_next : ScheduledTask → Option Nat)
    (cb : ScheduledTask → Option String) (has_callback : Bool)
    (now nowHour : Nat) : Scheduler × List SchedEvent :=
  let due := s.get_due_tasks now nowHour
  let r := process_due calc_next cb has_callback now due s.tasks
  ({ tasks := r.1 }, r.2)

/-- A due reminder task used in the C6 witness. -/
def c6_task : ScheduledTask :=
  { id := "r1", name := "rem", task_type := TaskType.reminder, message := "ping",
    scheduled_time := some 5, next_run := some 5 }

/-- A scheduler holding the due `c6_task`. -/
def c6_sched : Scheduler := { tasks := [("r1", c6_task)] }

/-- A one-time task used in the C8 counterexample and witness. -/
def c8_task : ScheduledTask :=
  { id := "t1", name := "n", task_type := TaskType.one_time, message := "m",
    scheduled_time := some 5, next_run := some 5 }

/-- A scheduler holding `c8_task`. -/
def c8_sched : Scheduler := { tasks := [("t1", c8_task)] }


/-! ## Agent loop (`agent/core.py`) -/

/-- Model of Python `s.startswith(pre)`. -/
def strStartsWith (s pre : String) : Bool :=
  listStartsWith s.data pre.data

/-- Model of Python `s.endswith(suf)`. -/
def strEndsWith (s suf : String) : Bool :=
  listStartsWith s.data.reverse suf.data.reverse

/-- Events observable during a `process_message` run: gateway `generate`
calls (with the message list sent), registry tool executions, and
approval-request creations. -/
inductive AgentEvent
  | llm_call (messages : List LLMMessage)
  | tool_exec (toolName : String) (arguments : List (String × String))
  | approval_created (approval : PendingApproval)
deriving DecidableEq

/-- Model of `ConversationContext.add_user_message`. -/
def userMsg (content : String) : LLMMessage :=
  { role := "user", content := content }

/-- Model of `ConversationContext.add_assistant_message`. -/
def assistantMsg (content : String) (tool_calls : Option (List ToolCall)) :
    LLMMessage :=
  { role := "assistant", content := content, tool_calls := tool_calls }

/-- Model of `ConversationContext.add_tool_result`. -/
def toolMsg (tool_call_id : String) (result : String) (tool_name : String) :
    LLMMessage :=
  { role := "tool", content := result, tool_call_id := some tool_call_id
    name := some tool_name }

/-- Model of `ConversationContext.truncate`. -/
def ConversationContext.truncate (messages : List LLMMessage)
    (max_messages : Nat) : List LLMMessage :=
  if messages.length > max_messages then pyTail messages max_messages
  else messages

/-- The approval-pending tool-result text built in `Agent.process_message`. -/
def approval_result_text (approval_id : String) : String :=
  "This action requires your approval before I can execute it.\nApproval ID: `"
    ++ approval_id ++ "`\nUse `/approve " ++ approval_id
    ++ "` to allow this action."

/-- The iteration-cap notice appended when the loop exhausts
`max_tool_iterations`. -/
def iteration_cap_notice : String :=
  "I\x27ve reached the maximum number of tool iterations. Here\x27s what I have so far."

/-- The running state of one `process_message` call: the conversation messages,
the (singleton) approval-manager state, the count of approvals created so far
in this run, and the observable event trace. -/
structure LoopState where
  messages : List LLMMessage
  mgr : ApprovalManager
  created : Nat
  events : List AgentEvent

/-- The per-tool-call body of the loop in `Agent.process_message`: a call whose
tool needs approval gets a `PendingApproval` (id supplied by `ids` at index
`created`, model of `uuid4()[:8]`) and an approval-pending tool message, and is
not executed; otherwise the call is dispatched through the registry and its
output (or `Error: ...`) appended. -/
def handle_tool_call (registry : ToolRegistry) (ids : Nat → String) (now : Nat)
    (st : LoopState) (tc : ToolCall) : LoopState :=
  if st.mgr.needs_approval tc.name then
    let r := st.mgr.create_approval_request (ids st.created) tc.name
      tc.arguments "" now
    { st with
        mgr := r.1
        created := st.created + 1
        messages := st.messages
          ++ [toolMsg tc.id (approval_result_text r.2.id) tc.name]
        events := st.events ++ [AgentEvent.approval_created r.2] }
  else
    let result := registry.execute tc.name tc.arguments
    let result_text :=
      if result.success then result.output else "Error: " ++ pyStr result.error
    { st with
        messages := st.messages ++ [toolMsg tc.id result_text tc.name]
        events := st.events ++ [AgentEvent.tool_exec tc.name tc.arguments] }

/-- The tool phase of one loop iteration: append the assistant message carrying
the tool calls, then handle each tool call in response order. -/
def run_tool_phase (registry : ToolRegistry) (ids : Nat → String) (now : Nat)
    (st : LoopState) (response : LLMResponse) : LoopState :=
  let st2 := { st with
    messages := st.messages
      ++ [assistantMsg response.content (some response.tool_calls)] }
  response.tool_calls.foldl (handle_tool_call registry ids now) st2

/-- Recording of one gateway `generate` call in the event trace. -/
def llm_called (st : LoopState) : LoopState :=
  { st with events := st.events ++ [AgentEvent.llm_call st.messages] }

/-- The `while iteration < max_tool_iterations` loop of
`Agent.process_message`.  `fuel` is the number of remaining iterations;
`oracle i` is the outcome of the gateway call of iteration `i` (`Except.error`
models a raised exception); the `Option LLMResponse` argument is the
`response` variable (the last response seen, `none` before the first call),
which the iteration-cap exit reads. -/
def process_loop (registry : ToolRegistry)
    (oracle : Nat → Except String LLMResponse) (ids : Nat → String) (now : Nat)
    (max_context_messages : Nat) :
    Nat → Nat → LoopState → Option LLMResponse → String × LoopState
  | 0, _, st, last =>
    let timeout_msg := iteration_cap_notice
    let timeout_msg :=
      match last with
      | some r =>
        if r.content ≠ "" then r.content ++ "\n\n" ++ timeout_msg
        else timeout_msg
      | none => timeout_msg
    (timeout_msg,
     { st with messages := st.messages ++ [assistantMsg timeout_msg none] })
  | fuel + 1, i, st, _ =>
    let st1 := llm_called st
    match oracle i with
    | Except.error e =>
      let error_msg := "I encountered an error processing your message: " ++ e
      (error_msg,
       { st1 with messages := st1.messages ++ [assistantMsg error_msg none] })
    | Except.ok response =>
      if response.tool_calls.isEmpty then
        (response.content,
         { st1 with
             messages := ConversationContext.truncate
               (st1.messages ++ [assistantMsg response.content none])
               max_context_messages })
      else
        process_loop registry oracle ids now max_context_messages fuel (i + 1)
          (run_tool_phase registry ids now st1 response) (some response)

/-- Model of `Agent.process_message`: run compaction when the estimate reaches the
threshold (`_maybe_compact`), append the user message, then enter the bounded
tool loop.  `llmSummary` abstracts the summarizer gateway call inside
compaction. -/
def process_message (registry : ToolRegistry) (mgr : ApprovalManager)
    (oracle : Nat → Except String LLMResponse) (ids : Nat → String) (now : Nat)
    (llmSummary : Option String) (ccfg : CompactionConfig)
    (max_tool_iterations max_context_messages : Nat)
    (message : String) (messages0 : List LLMMessage) : String × LoopState :=
  let messages1 :=
    if thresholdTokens ccfg ≤ estimate_tokens messages0 then
      (compact_conversation llmSummary messages0 ccfg).1
    else messages0
  let st : LoopState :=
    { messages := messages1 ++ [userMsg message], mgr := mgr, created := 0
      events := [] }
  process_loop registry oracle ids now max_context_messages
    max_tool_iterations 0 st none

/-- The number of gateway calls recorded in a trace. -/
def countLlmCalls (events : List AgentEvent) : Nat :=
  (events.filter (fun e =>
    match e with
    | AgentEvent.llm_call _ => true
    | _ => false)).length

/-- The LLM response used in the C3 counterexample: non-empty text plus a tool
call, returned on every iteration. -/
def c3_oracle : Nat → Except String LLMResponse := fun _ =>
  Except.ok { content := "done"
              tool_calls := [{ id := "t1", name := "web_search", arguments := [] }] }

/-- An empty loop state used in the C3 witness. -/
def w3_st : LoopState :=
  { messages := [], mgr := {}, created := 0, events := [] }

/-- A text-only response used as the last response in the C3 witness. -/
def w3_response : LLMResponse := { content := "done" }

/-- An injective uuid supply used in the C2 witness. -/
def w2_ids : Nat → String := fun n => ⟨List.replicate n 'a'⟩

/-- A dangerous tool call used in the C2 witness. -/
def w2_tc : ToolCall :=
  { id := "t1", name := "run_command", arguments := [("command", "ls")] }

/-- A response carrying the dangerous tool call, used in the C2 witness. -/
def w2_resp : LLMResponse := { content := "", tool_calls := [w2_tc] }

/-- An oracle that always returns `w2_resp`, used in the C2 witness. -/
def w2_oracle : Nat → Except String LLMResponse := fun _ => Except.ok w2_resp

/-- An empty loop state with the default approval manager, used in the C2
witness. -/
def w2_st : LoopState := { messages := [], mgr := {}, created := 0, events := [] }

/-- Modelled from the spec: the write-temp-then-rename atomic-rewrite pattern
("the new JSON document is written to a temporary file which is then renamed
over the task file"). -/
def is_atomic_rewrite (ops : List FsOp) (target : String) : Prop :=
  ∃ tmp content, tmp ≠ target
    ∧ ops = [FsOp.write tmp content, FsOp.rename tmp target]


end IIAgent

namespace IIAgent

/-- C9: the token estimate of the empty message list is 0, and
`estimate_tokens` is monotone: appending a message, or lengthening any
message\x27s content, never decreases the estimate. -/
theorem estimate_tokens_zero_and_monotone :
    estimate_tokens [] = 0
    ∧ (∀ (l : List LLMMessage) (m : LLMMessage),
        estimate_tokens l ≤ estimate_tokens (l ++ [m]))
    ∧ (∀ (l1 l2 : List LLMMessage) (m m2 : LLMMessage),
        m.content.length ≤ m2.content.length →
        estimate_tokens (l1 ++ m :: l2) ≤ estimate_tokens (l1 ++ m2 :: l2)) := by
  refine ⟨rfl, ?_, ?_⟩
  · intro l m
    apply Nat.div_le_div_right
    simp only [estimate_tokens, List.map_append, List.sum_append, List.length_append,
      List.map_cons, List.sum_cons, List.map_nil, List.sum_nil, List.length_cons,
      List.length_nil]
    omega
  · intro l1 l2 m m2 h
    apply Nat.div_le_div_right
    simp only [List.map_append, List.sum_append, List.length_append,
      List.map_cons, List.sum_cons, List.length_cons]
    omega

/-- Witness for C9 at concrete inputs. -/
theorem estimate_tokens_zero_and_monotone_witness :
    (LLMMessage.mk "user" "hi" none none none).content.length
      ≤ (LLMMessage.mk "user" "hi there" none none none).content.length
    ∧ estimate_tokens ([] ++ LLMMessage.mk "user" "hi" none none none :: [])
      ≤ estimate_tokens ([] ++ LLMMessage.mk "user" "hi there" none none none :: []) :=
  ⟨by decide,
   estimate_tokens_zero_and_monotone.2.2 [] []
     (LLMMessage.mk "user" "hi" none none none)
     (LLMMessage.mk "user" "hi there" none none none) (by decide)⟩

/-- C4: whenever `compact_conversation` actually compacts (compaction enabled,
the estimate is at or above the threshold, and the log is longer than twice
`keep_recent_messages`), the last `keep_recent_messages` entries of the input
are preserved bit-identical as a suffix of the compacted list. -/
theorem compaction_preserves_recent_tail (llmSummary : Option String)
    (messages : List LLMMessage) (config : CompactionConfig)
    (hen : config.enabled = true)
    (hth : thresholdTokens config ≤ estimate_tokens messages)
    (hk : 0 < config.keep_recent_messages)
    (hlen : config.keep_recent_messages * 2 < messages.length) :
    ∃ p, (compact_conversation llmSummary messages config).1
      = p ++ messages.drop (messages.length - config.keep_recent_messages) := by
  have h2 : ¬ (estimate_tokens messages < thresholdTokens config) := Nat.not_lt.mpr hth
  have h3 : min (config.keep_recent_messages * 2) messages.length
      = config.keep_recent_messages * 2 := Nat.min_eq_left (le_of_lt hlen)
  have hne : config.keep_recent_messages * 2 ≠ 0 := by omega
  have hlen2 : 0 < (pyDropTail messages (config.keep_recent_messages * 2)).length := by
    unfold pyDropTail
    rw [if_neg hne, List.length_take]
    omega
  have hempty : (pyDropTail messages (config.keep_recent_messages * 2)).isEmpty = false := by
    cases h : (pyDropTail messages (config.keep_recent_messages * 2)).isEmpty
    · rfl
    · rw [List.isEmpty_iff] at h
      rw [h] at hlen2
      simp at hlen2
  have hsplit : messages.drop (messages.length - config.keep_recent_messages * 2)
      = (messages.drop (messages.length - config.keep_recent_messages * 2)).take
          config.keep_recent_messages
        ++ messages.drop (messages.length - config.keep_recent_messages) := by
    conv_lhs => rw [← List.take_append_drop config.keep_recent_messages
      (messages.drop (messages.length - config.keep_recent_messages * 2))]
    congr 1
    rw [List.drop_drop]
    congr 1
    omega
  simp only [compact_conversation, hen, Bool.not_true, Bool.false_eq_true, if_false, h2,
    ite_false, h3, if_pos hlen, hempty]
  unfold pyTail
  rw [if_neg hne, hsplit]
  exact ⟨_ ++ _, (List.append_assoc _ _ _).symm⟩

/-- Witness for C4 at a concrete compacting input. -/
theorem compaction_preserves_recent_tail_witness :
    c4_config.enabled = true
    ∧ thresholdTokens c4_config ≤ estimate_tokens c4_messages
    ∧ 0 < c4_config.keep_recent_messages
    ∧ c4_config.keep_recent_messages * 2 < c4_messages.length
    ∧ ∃ p, (compact_conversation (some "S") c4_messages c4_config).1
        = p ++ c4_messages.drop (c4_messages.length - c4_config.keep_recent_messages) :=
  ⟨by decide, by decide, by decide, by decide,
   compaction_preserves_recent_tail (some "S") c4_messages c4_config
     (by decide) (by decide) (by decide) (by decide)⟩

/-- C1 (code evaluation at the failing input): the input log satisfies
invariant I1, but the compacted log produced by `compact_conversation` does
not — the tool-result message with `tool_call_id` `t1` is preserved while the
assistant message carrying the matching `tool_calls` entry is summarized away,
leaving a dangling reference. -/
theorem compaction_drops_parent_keeps_tool_result :
    no_dangling [] c1_messages = true
    ∧ no_dangling [] (compact_conversation (some "S") c1_messages c1_config).1 = false := by
  decide

end IIAgent


namespace IIAgent

theorem lookupA_dictSet_self {α : Type} (l : List (String × α)) (key : String) (v : α) :
    lookupA (dictSet l key v) key = some v := by
  unfold dictSet
  by_cases h : (lookupA l key).isSome
  · rw [if_pos h]
    induction l with
    | nil => simp [lookupA] at h
    | cons p rest ih =>
      by_cases hk : p.1 = key
      · simp only [List.map_cons, if_pos hk]
        rw [lookupA, if_pos rfl]
      · simp only [List.map_cons, if_neg hk]
        rw [lookupA, if_neg hk]
        apply ih
        rw [lookupA, if_neg hk] at h
        exact h
  · rw [if_neg h]
    induction l with
    | nil => rw [List.nil_append, lookupA, if_pos rfl]
    | cons p rest ih =>
      by_cases hk : p.1 = key
      · exfalso
        apply h
        rw [lookupA, if_pos hk]
        rfl
      · rw [List.cons_append, lookupA, if_neg hk]
        apply ih
        rw [lookupA, if_neg hk] at h
        exact h

theorem mem_of_lookupA {α : Type} (l : List (String × α)) (key : String) (v : α)
    (h : lookupA l key = some v) : (key, v) ∈ l := by
  induction l with
  | nil => simp [lookupA] at h
  | cons p rest ih =>
    rw [lookupA] at h
    by_cases hk : p.1 = key
    · rw [if_pos hk] at h
      have hp : p = (key, v) := by
        cases p with
        | mk k w =>
          simp only at hk
          subst hk
          simp only [Option.some_inj] at h
          rw [h]
      exact List.mem_cons.mpr (Or.inl hp.symm)
    · rw [if_neg hk] at h
      exact List.mem_cons.mpr (Or.inr (ih h))

theorem lookupA_filter_contains_none {α : Type} (l : List (String × α))
    (ex : List String) (key : String) (h : ex.contains key = true) :
    lookupA (l.filter (fun p => !(ex.contains p.1))) key = none := by
  induction l with
  | nil => simp [lookupA]
  | cons p rest ih =>
    by_cases hk : p.1 = key
    · rw [List.filter_cons, hk, h]
      simpa using ih
    · rw [List.filter_cons]
      by_cases hc : ex.contains p.1
      · simp only [hc, Bool.not_true, if_neg]
        simpa using ih
      · simp only [Bool.not_eq_true] at hc
        simp only [hc, Bool.not_false, if_pos]
        rw [lookupA, if_neg hk]
        exact ih

end IIAgent

namespace IIAgent

theorem approve_of_not_pending (m : ApprovalManager) (id : String) (now : Nat)
    (h : ∀ a, lookupA m.pending id = some a → a.is_pending now = false) :
    m.approve id now = (m, false) := by
  unfold ApprovalManager.approve
  cases hl : lookupA m.pending id with
  | none => rfl
  | some a =>
    simp [h a hl]

theorem deny_of_not_pending (m : ApprovalManager) (id : String) (now : Nat)
    (h : ∀ a, lookupA m.pending id = some a → a.is_pending now = false) :
    m.deny id now = (m, false) := by
  unfold ApprovalManager.deny
  cases hl : lookupA m.pending id with
  | none => rfl
  | some a =>
    simp [h a hl]

theorem approve_success_pending (m : ApprovalManager) (id : String) (now : Nat)
    (h : (m.approve id now).2 = true) :
    ∃ a, lookupA (m.approve id now).1.pending id = some a
      ∧ (a.approved = true ∨ a.denied = true) := by
  unfold ApprovalManager.approve at h ⊢
  cases hl : lookupA m.pending id with
  | none => rw [hl] at h; simp at h
  | some a =>
    rw [hl] at h
    dsimp only at h ⊢
    by_cases hp : a.is_pending now = true
    · simp only [hp, Bool.not_true, Bool.false_eq_true, if_false]
      split
      · exact ⟨{ a with approved := true }, lookupA_dictSet_self _ _ _, Or.inl rfl⟩
      · exact ⟨{ a with approved := true }, lookupA_dictSet_self _ _ _, Or.inl rfl⟩
    · rw [Bool.not_eq_true] at hp
      rw [hp] at h
      simp at h

theorem deny_success_pending (m : ApprovalManager) (id : String) (now : Nat)
    (h : (m.deny id now).2 = true) :
    ∃ a, lookupA (m.deny id now).1.pending id = some a
      ∧ (a.approved = true ∨ a.denied = true) := by
  unfold ApprovalManager.deny at h ⊢
  cases hl : lookupA m.pending id with
  | none => rw [hl] at h; simp at h
  | some a =>
    rw [hl] at h
    dsimp only at h ⊢
    by_cases hp : a.is_pending now = true
    · simp only [hp, Bool.not_true, Bool.false_eq_true, if_false]
      split
      · exact ⟨{ a with denied := true }, lookupA_dictSet_self _ _ _, Or.inr rfl⟩
      · exact ⟨{ a with denied := true }, lookupA_dictSet_self _ _ _, Or.inr rfl⟩
    · rw [Bool.not_eq_true] at hp
      rw [hp] at h
      simp at h

theorem not_pending_of_terminal (a : PendingApproval) (now : Nat)
    (h : a.approved = true ∨ a.denied = true) : a.is_pending now = false := by
  unfold PendingApproval.is_pending
  rcases h with h | h <;> simp [h]

/-- C5: `approve` and `deny` return false and leave the manager unchanged when
the id is unknown or the request is no longer pending (approved, denied or
expired); and once an `approve` or `deny` succeeds, every later `approve` or
`deny` for that id returns false and leaves the state unchanged. -/
theorem approve_deny_terminal_noop (m : ApprovalManager) (id : String)
    (now now2 : Nat) :
    ((∀ a, lookupA m.pending id = some a → a.is_pending now = false) →
      m.approve id now = (m, false) ∧ m.deny id now = (m, false))
    ∧ ((m.approve id now).2 = true →
        (m.approve id now).1.approve id now2 = ((m.approve id now).1, false)
        ∧ (m.approve id now).1.deny id now2 = ((m.approve id now).1, false))
    ∧ ((m.deny id now).2 = true →
        (m.deny id now).1.approve id now2 = ((m.deny id now).1, false)
        ∧ (m.deny id now).1.deny id now2 = ((m.deny id now).1, false)) := by
  refine ⟨fun h => ⟨approve_of_not_pending m id now h, deny_of_not_pending m id now h⟩,
    fun h => ?_, fun h => ?_⟩
  · obtain ⟨a, hl, hterm⟩ := approve_success_pending m id now h
    have hnp : ∀ b, lookupA (m.approve id now).1.pending id = some b →
        b.is_pending now2 = false := by
      intro b hb
      rw [hl] at hb
      cases hb
      exact not_pending_of_terminal a now2 hterm
    exact ⟨approve_of_not_pending _ id now2 hnp, deny_of_not_pending _ id now2 hnp⟩
  · obtain ⟨a, hl, hterm⟩ := deny_success_pending m id now h
    have hnp : ∀ b, lookupA (m.deny id now).1.pending id = some b →
        b.is_pending now2 = false := by
      intro b hb
      rw [hl] at hb
      cases hb
      exact not_pending_of_terminal a now2 hterm
    exact ⟨approve_of_not_pending _ id now2 hnp, deny_of_not_pending _ id now2 hnp⟩

end IIAgent

namespace IIAgent

/-- C10: once a record is terminal (approved, denied or expired), one
`list_pending` call deletes both the record and its completion event, after
which `get_pending` returns none and `wait_for_approval` returns false for
every wait outcome — even for an approved request. -/
theorem terminal_purged_by_list_pending (m : ApprovalManager) (id : String)
    (a : PendingApproval) (now : Nat)
    (hlook : lookupA m.pending id = some a)
    (hterm : (a.is_expired now || a.approved || a.denied) = true) :
    (m.list_pending now).1.get_pending id = none
    ∧ lookupA (m.list_pending now).1.approval_events id = none
    ∧ ∀ event_fires, (m.list_pending now).1.wait_for_approval id event_fires = false := by
  have hmem : (id, a) ∈ m.pending := mem_of_lookupA _ _ _ hlook
  have hfil : (id, a) ∈ m.pending.filter
      (fun p => p.2.is_expired now || p.2.approved || p.2.denied) := by
    rw [List.mem_filter]
    exact ⟨hmem, hterm⟩
  have hex : ((m.pending.filter
      (fun p => p.2.is_expired now || p.2.approved || p.2.denied)).map
        Prod.fst).contains id = true := by
    apply List.elem_eq_true_of_mem
    exact List.mem_map_of_mem Prod.fst hfil
  have hpend : lookupA ((m.list_pending now).1.pending) id = none := by
    unfold ApprovalManager.list_pending ApprovalManager.cleanup_expired
    dsimp only
    exact lookupA_filter_contains_none _ _ _ hex
  have hev : lookupA ((m.list_pending now).1.approval_events) id = none := by
    unfold ApprovalManager.list_pending ApprovalManager.cleanup_expired
    dsimp only
    exact lookupA_filter_contains_none _ _ _ hex
  refine ⟨hpend, hev, ?_⟩
  intro ef
  unfold ApprovalManager.wait_for_approval
  rw [hev]

/-- Witness for C5: a concrete successful approve followed by a failing
approve and deny. -/
theorem approve_deny_terminal_noop_witness :
    (w5_mgr.approve "a1" 10).2 = true
    ∧ (w5_mgr.approve "a1" 10).1.approve "a1" 20 = ((w5_mgr.approve "a1" 10).1, false)
    ∧ (w5_mgr.approve "a1" 10).1.deny "a1" 20 = ((w5_mgr.approve "a1" 10).1, false) :=
  ⟨by decide,
   ((approve_deny_terminal_noop w5_mgr "a1" 10 20).2.1 (by decide)).1,
   ((approve_deny_terminal_noop w5_mgr "a1" 10 20).2.1 (by decide)).2⟩

/-- Witness for C10 at a concrete approved record. -/
theorem terminal_purged_by_list_pending_witness :
    lookupA w10_mgr.pending "b2" = some w10_approval
    ∧ (w10_approval.is_expired 10 || w10_approval.approved || w10_approval.denied) = true
    ∧ (w10_mgr.list_pending 10).1.get_pending "b2" = none
    ∧ lookupA (w10_mgr.list_pending 10).1.approval_events "b2" = none
    ∧ (w10_mgr.list_pending 10).1.wait_for_approval "b2" true = false :=
  ⟨by decide, by decide,
   (terminal_purged_by_list_pending w10_mgr "b2" w10_approval 10 (by decide) (by decide)).1,
   (terminal_purged_by_list_pending w10_mgr "b2" w10_approval 10 (by decide) (by decide)).2.1,
   (terminal_purged_by_list_pending w10_mgr "b2" w10_approval 10 (by decide) (by decide)).2.2 true⟩

end IIAgent

namespace IIAgent

/-- C7 counterexample: an unknown tool name yields a failed result whose error
string is the f-string `Tool \x27<name>\x27 not found`, not the literal
`tool not found` the claim states. -/
theorem registry_not_found_literal :
    (ToolRegistry.execute { tools := [] } "run_command" []).success = false
    ∧ (ToolRegistry.execute { tools := [] } "run_command" []).error
        ≠ some "tool not found" := by
  constructor
  · rfl
  · decide

/-- C7 (amended): `ToolRegistry.execute` is a total function (it never
raises); an unknown name yields `success=false` with the not-found error
string, a raising tool yields `success=false` with the exception text, and a
returning tool\x27s result is passed through. -/
theorem registry_execute_never_raises (r : ToolRegistry) (name : String)
    (arguments : List (String × String)) :
    (r.get name = none →
      r.execute name arguments
        = { success := false, output := ""
            error := some ("Tool \x27" ++ name ++ "\x27 not found") })
    ∧ (∀ tool result, r.get name = some tool → tool arguments = Except.ok result →
        r.execute name arguments = result)
    ∧ (∀ tool e, r.get name = some tool → tool arguments = Except.error e →
        r.execute name arguments
          = { success := false, output := "", error := some e }) := by
  refine ⟨fun h => ?_, fun tool result h1 h2 => ?_, fun tool e h1 h2 => ?_⟩
  · unfold ToolRegistry.execute
    rw [h]
  · unfold ToolRegistry.execute
    rw [h1]
    dsimp only
    rw [h2]
  · unfold ToolRegistry.execute
    rw [h1]
    dsimp only
    rw [h2]

/-- Witness for C7 on the concrete registry `w7_reg`. -/
theorem registry_execute_never_raises_witness :
    w7_reg.execute "bad_tool" [] = { success := false, output := "", error := some "boom" }
    ∧ w7_reg.execute "missing" []
        = { success := false, output := "", error := some ("Tool \x27missing\x27 not found") }
    ∧ w7_reg.execute "ok_tool" [] = { success := true, output := "fine", error := none } :=
  ⟨(registry_execute_never_raises w7_reg "bad_tool" []).2.2 _ "boom" rfl rfl,
   (registry_execute_never_raises w7_reg "missing" []).1 rfl,
   (registry_execute_never_raises w7_reg "ok_tool" []).2.1 _ _ rfl rfl⟩

/-- C8 counterexample: removing a task persists with a non-empty filesystem
trace that is not of the write-temp-then-rename shape. -/
theorem save_tasks_not_atomic_rewrite :
    (c8_sched.remove_task "t1" 0).2.1 ≠ []
    ∧ ¬ is_atomic_rewrite ((c8_sched.remove_task "t1" 0).2.1) tasks_file := by
  constructor
  · decide
  · rintro ⟨tmp, content, hne, heq⟩
    have hl : ((c8_sched.remove_task "t1" 0).2.1).length = 1 := by decide
    rw [heq] at hl
    simp at hl

/-- C8 (amended): every mutation of the task collection persists the whole
JSON document by a single direct write of the task file (no temporary file and
no rename); `remove_task` persists exactly when the id was present. -/
theorem scheduler_mutations_direct_write (s : Scheduler)
    (calc_next : ScheduledTask → Option Nat)
    (task_id name message cron_expression : String) (ah : Option (Nat × Nat))
    (st delay : Nat) (rname : Option String) (now : Nat) :
    (s.add_cron_task calc_next task_id name message cron_expression ah now).2.1
      = [FsOp.write tasks_file
          (dumps_tasks (s.add_cron_task calc_next task_id name message
            cron_expression ah now).1.tasks now)]
    ∧ (s.add_one_time_task calc_next task_id name message st now).2.1
      = [FsOp.write tasks_file
          (dumps_tasks (s.add_one_time_task calc_next task_id name message
            st now).1.tasks now)]
    ∧ (s.add_reminder calc_next task_id message delay rname now).2.1
      = [FsOp.write tasks_file
          (dumps_tasks (s.add_reminder calc_next task_id message delay
            rname now).1.tasks now)]
    ∧ ((lookupA s.tasks task_id).isSome = true →
        (s.remove_task task_id now).2.1
          = [FsOp.write tasks_file
              (dumps_tasks (s.remove_task task_id now).1.tasks now)]) := by
  refine ⟨rfl, rfl, rfl, fun h => ?_⟩
  unfold Scheduler.remove_task
  rw [if_pos h]
  rfl

/-- Witness for C8 on a concrete removal. -/
theorem scheduler_mutations_direct_write_witness :
    (lookupA c8_sched.tasks "t1").isSome = true
    ∧ (c8_sched.remove_task "t1" 0).2.1
      = [FsOp.write tasks_file (dumps_tasks (c8_sched.remove_task "t1" 0).1.tasks 0)] :=
  ⟨by decide,
   (scheduler_mutations_direct_write c8_sched (fun _ => none) "t1" "n" "m" "c"
     none 0 0 none 0).2.2.2 (by decide)⟩

end IIAgent

namespace IIAgent

theorem lookupA_map_update_other {α : Type} (l : List (String × α))
    (key : String) (v : α) (key2 : String) (h : key2 ≠ key) :
    lookupA (l.map (fun p => if p.1 = key then (key, v) else p)) key2
      = lookupA l key2 := by
  induction l with
  | nil => rfl
  | cons p rest ih =>
    by_cases hp : p.1 = key
    · simp only [List.map_cons, if_pos hp]
      rw [lookupA, lookupA, if_neg (Ne.symm h), if_neg (hp ▸ Ne.symm h)]
      exact ih
    · simp only [List.map_cons, if_neg hp]
      rw [lookupA, lookupA]
      by_cases hpk : p.1 = key2
      · rw [if_pos hpk, if_pos hpk]
      · rw [if_neg hpk, if_neg hpk]
        exact ih

theorem lookupA_append_single_other {α : Type} (l : List (String × α))
    (key : String) (v : α) (key2 : String) (h : key2 ≠ key) :
    lookupA (l ++ [(key, v)]) key2 = lookupA l key2 := by
  induction l with
  | nil => simp [lookupA, Ne.symm h]
  | cons p rest ih =>
    rw [List.cons_append, lookupA, lookupA]
    by_cases hpk : p.1 = key2
    · rw [if_pos hpk, if_pos hpk]
    · rw [if_neg hpk, if_neg hpk]
      exact ih

theorem lookupA_dictSet_other {α : Type} (l : List (String × α))
    (key : String) (v : α) (key2 : String) (h : key2 ≠ key) :
    lookupA (dictSet l key v) key2 = lookupA l key2 := by
  unfold dictSet
  by_cases hs : (lookupA l key).isSome
  · rw [if_pos hs]
    exact lookupA_map_update_other l key v key2 h
  · rw [if_neg hs]
    exact lookupA_append_single_other l key v key2 h

theorem lookupA_eq_of_mem_nodup {α : Type} (l : List (String × α))
    (key : String) (v : α) (hnd : (l.map Prod.fst).Nodup)
    (hm : (key, v) ∈ l) : lookupA l key = some v := by
  induction l with
  | nil => cases hm
  | cons p rest ih =>
    rw [List.map_cons, List.nodup_cons] at hnd
    rcases List.mem_cons.mp hm with he | hr
    · rw [← he, lookupA, if_pos rfl]
    · rw [lookupA]
      by_cases hpk : p.1 = key
      · exfalso
        apply hnd.1
        rw [hpk]
        exact List.mem_map_of_mem Prod.fst hr
      · rw [if_neg hpk]
        exact ih hnd.2 hr

end IIAgent

namespace IIAgent

theorem process_due_preserve (calc_next : ScheduledTask → Option Nat)
    (cb : ScheduledTask → Option String) (has_callback : Bool) (now : Nat)
    (id : String) (t : ScheduledTask) (htid : t.id = id) :
    ∀ (due : List ScheduledTask) (tasks : List (String × ScheduledTask)),
    (∀ u ∈ due, u.id = id → u = t) →
    lookupA tasks id = some (ScheduledTask.mark_completed calc_next t now) →
    lookupA (process_due calc_next cb has_callback now due tasks).1 id
      = some (ScheduledTask.mark_completed calc_next t now) := by
  intro due
  induction due with
  | nil =>
    intro tasks _ hl
    rw [process_due]
    exact hl
  | cons u rest ih =>
    intro tasks hu hl
    rw [process_due]
    dsimp only
    by_cases hui : u.id = id
    · have hut : u = t := hu u (List.mem_cons_self u rest) hui
      apply ih
      · intro x hx hxi
        exact hu x (List.mem_cons_of_mem u hx) hxi
      · rw [hut, htid]
        exact lookupA_dictSet_self _ _ _
    · apply ih
      · intro x hx hxi
        exact hu x (List.mem_cons_of_mem u hx) hxi
      · rw [lookupA_dictSet_other _ _ _ _ (fun hh => hui hh.symm)]
        exact hl

theorem process_due_core (calc_next : ScheduledTask → Option Nat)
    (cb : ScheduledTask → Option String) (has_callback : Bool) (now : Nat)
    (id : String) (t : ScheduledTask) (htid : t.id = id) :
    ∀ (due : List ScheduledTask) (tasks : List (String × ScheduledTask)),
    (∀ u ∈ due, u.id = id → u = t) →
    t ∈ due →
    lookupA (process_due calc_next cb has_callback now due tasks).1 id
      = some (ScheduledTask.mark_completed calc_next t now)
    ∧ ∃ snap, SchedEvent.saved snap ∈ (process_due calc_next cb has_callback now due tasks).2
        ∧ lookupA snap id = some (ScheduledTask.mark_completed calc_next t now) := by
  intro due
  induction due with
  | nil =>
    intro tasks _ hmem
    cases hmem
  | cons u rest ih =>
    intro tasks hu hmem
    rw [process_due]
    dsimp only
    by_cases hui : u.id = id
    · have hut : u = t := hu u (List.mem_cons_self u rest) hui
      have hl2 : lookupA (dictSet tasks u.id
          (ScheduledTask.mark_completed calc_next u now)) id
          = some (ScheduledTask.mark_completed calc_next t now) := by
        rw [hut, htid]
        exact lookupA_dictSet_self _ _ _
      constructor
      · apply process_due_preserve calc_next cb has_callback now id t htid rest
        · intro x hx hxi
          exact hu x (List.mem_cons_of_mem u hx) hxi
        · exact hl2
      · refine ⟨dictSet tasks u.id (ScheduledTask.mark_completed calc_next u now),
          ?_, hl2⟩
        apply List.mem_append_left
        apply List.mem_append_right
        exact List.mem_singleton_self _
    · have hmem2 : t ∈ rest := by
        rcases List.mem_cons.mp hmem with he | hr
        · exfalso
          apply hui
          rw [he] at htid
          exact htid
        · exact hr
      have hu2 : ∀ x ∈ rest, x.id = id → x = t := by
        intro x hx hxi
        exact hu x (List.mem_cons_of_mem u hx) hxi
      obtain ⟨h1, snap, h2, h3⟩ := ih (dictSet tasks u.id
        (ScheduledTask.mark_completed calc_next u now)) hu2 hmem2
      refine ⟨h1, snap, ?_, h3⟩
      apply List.mem_append_right
      exact h2

end IIAgent

namespace IIAgent

/-- Model of `mark_completed` on a one-time or reminder task records the completion
time, disables the task and clears `next_run`. -/
theorem mark_completed_oneshot (calc_next : ScheduledTask → Option Nat)
    (t : ScheduledTask) (now : Nat)
    (h : t.task_type = TaskType.one_time ∨ t.task_type = TaskType.reminder) :
    (ScheduledTask.mark_completed calc_next t now).last_run = some now
    ∧ (ScheduledTask.mark_completed calc_next t now).enabled = false
    ∧ (ScheduledTask.mark_completed calc_next t now).next_run = none := by
  unfold ScheduledTask.mark_completed
  rcases h with h | h <;> simp [h]

/-- Model of `mark_completed` never changes the `enabled` flag of a cron task. -/
theorem mark_completed_cron_keeps_enabled (calc_next : ScheduledTask → Option Nat)
    (t : ScheduledTask) (now : Nat) (h : t.task_type = TaskType.cron) :
    (ScheduledTask.mark_completed calc_next t now).enabled = t.enabled
    ∧ (ScheduledTask.mark_completed calc_next t now).last_run = some now := by
  unfold ScheduledTask.mark_completed
  simp only [h]
  constructor
  · split
    · simp at *
    · split <;> rfl
  · split
    · simp at *
    · split <;> rfl

end IIAgent

namespace IIAgent

/-- C6: in a scheduler tick, every due task — for any callback outcome,
raising (`cb` returns `some error`) or not — ends marked completed in the
final task map and in a persisted snapshot; for one-time/reminder kinds the
completed task has `last_run = now`, `enabled = false`, `next_run = none`; and
completion never disables a cron task. -/
theorem scheduler_tick_completes_due_task (s : Scheduler)
    (calc_next : ScheduledTask → Option Nat) (cb : ScheduledTask → Option String)
    (has_callback : Bool) (now nowHour : Nat) (id : String) (t : ScheduledTask)
    (hkeys : (s.tasks.map Prod.fst).Nodup)
    (hcons : ∀ p ∈ s.tasks, (Prod.snd p).id = p.1)
    (hlook : lookupA s.tasks id = some t)
    (hdue : t.should_run now nowHour = true) :
    lookupA (s.run_tick calc_next cb has_callback now nowHour).1.tasks id
      = some (ScheduledTask.mark_completed calc_next t now)
    ∧ (∃ snap,
        SchedEvent.saved snap ∈ (s.run_tick calc_next cb has_callback now nowHour).2
        ∧ lookupA snap id = some (ScheduledTask.mark_completed calc_next t now))
    ∧ (t.task_type = TaskType.one_time ∨ t.task_type = TaskType.reminder →
        (ScheduledTask.mark_completed calc_next t now).last_run = some now
        ∧ (ScheduledTask.mark_completed calc_next t now).enabled = false
        ∧ (ScheduledTask.mark_completed calc_next t now).next_run = none)
    ∧ (t.task_type = TaskType.cron →
        (ScheduledTask.mark_completed calc_next t now).enabled = t.enabled) := by
  have hmemp : (id, t) ∈ s.tasks := mem_of_lookupA _ _ _ hlook
  have htid : t.id = id := hcons (id, t) hmemp
  have hmem : t ∈ s.get_due_tasks now nowHour := by
    unfold Scheduler.get_due_tasks
    rw [List.mem_filter]
    exact ⟨List.mem_map_of_mem Prod.snd hmemp, hdue⟩
  have hu : ∀ u ∈ s.get_due_tasks now nowHour, u.id = id → u = t := by
    intro u hudue hui
    unfold Scheduler.get_due_tasks at hudue
    have humem := List.mem_of_mem_filter hudue
    obtain ⟨p, hp, hpu⟩ := List.mem_map.mp humem
    have h0 := hcons p hp
    rw [hpu] at h0
    have hpk : p.1 = id := by rw [← h0, hui]
    obtain ⟨p1, p2⟩ := p
    simp only at h0 hpk
    simp only at hpu
    have hpe : (p1, p2) = (id, u) := by rw [hpk, hpu]
    rw [hpe] at hp
    have hlu := lookupA_eq_of_mem_nodup s.tasks id u hkeys hp
    rw [hlook] at hlu
    exact (Option.some_inj.mp hlu).symm
  unfold Scheduler.run_tick
  dsimp only
  obtain ⟨h1, h2⟩ := process_due_core calc_next cb has_callback now id t htid
    (s.get_due_tasks now nowHour) s.tasks hu hmem
  exact ⟨h1, h2,
    fun h => mark_completed_oneshot calc_next t now h,
    fun h => (mark_completed_cron_keeps_enabled calc_next t now h).1⟩

/-- Witness for C6: a due reminder processed by a tick whose callback raises. -/
theorem scheduler_tick_completes_due_task_witness :
    lookupA c6_sched.tasks "r1" = some c6_task
    ∧ c6_task.should_run 10 3 = true
    ∧ lookupA (c6_sched.run_tick (fun _ => none) (fun _ => some "boom")
        true 10 3).1.tasks "r1"
        = some (ScheduledTask.mark_completed (fun _ => none) c6_task 10)
    ∧ ((ScheduledTask.mark_completed (fun _ => none) c6_task 10).last_run = some 10
        ∧ (ScheduledTask.mark_completed (fun _ => none) c6_task 10).enabled = false
        ∧ (ScheduledTask.mark_completed (fun _ => none) c6_task 10).next_run = none) :=
  ⟨by decide, by decide,
   (scheduler_tick_completes_due_task c6_sched (fun _ => none) (fun _ => some "boom")
     true 10 3 "r1" c6_task (by decide) (by decide) (by decide) (by decide)).1,
   (scheduler_tick_completes_due_task c6_sched (fun _ => none) (fun _ => some "boom")
     true 10 3 "r1" c6_task (by decide) (by decide) (by decide) (by decide)).2.2.1
     (Or.inr rfl)⟩

end IIAgent

namespace IIAgent

/-- A list starts with itself, whatever is appended after it. -/
theorem listStartsWith_append_self : ∀ (a b : List Char),
    listStartsWith (a ++ b) a = true := by
  intro a
  induction a with
  | nil =>
    intro b
    cases b <;> rfl
  | cons c cs ih =>
    intro b
    show (c == c && listStartsWith (cs ++ b) cs) = true
    simp [ih]

/-- Appending a suffix makes `strEndsWith` hold for it. -/
theorem strEndsWith_append (s t : String) : strEndsWith (s ++ t) t = true := by
  unfold strEndsWith
  rw [String.data_append, List.reverse_append]
  exact listStartsWith_append_self _ _

/-- C3 counterexample: a run that exhausts the iteration cap with a last
response whose content is `done` returns `done\n\n<cap notice>` — the cap
notice is a suffix, and the returned message does not start with it. -/
theorem iteration_cap_is_suffix_not_prefix :
    (process_message { tools := [] } {} c3_oracle (fun _ => "a0") 0 none
        {} 1 50 "hi" []).1
      = "done\n\n" ++ iteration_cap_notice
    ∧ strStartsWith
        (process_message { tools := [] } {} c3_oracle (fun _ => "a0") 0 none
          {} 1 50 "hi" []).1
        iteration_cap_notice = false := by
  decide

/-- C3 (amended): when the loop exits by the iteration cap, the appended
assistant message is the last response\x27s text followed by the cap notice
(`<content>\n\n<notice>` when the content is non-empty, the bare notice
otherwise): the cap notice is always a suffix of the returned message, and the
message is appended verbatim as the final assistant entry. -/
theorem iteration_cap_appends_notice_suffix (registry : ToolRegistry)
    (oracle : Nat → Except String LLMResponse) (ids : Nat → String)
    (now maxCtx i : Nat) (st : LoopState) (last : Option LLMResponse) :
    strEndsWith (process_loop registry oracle ids now maxCtx 0 i st last).1
      iteration_cap_notice = true
    ∧ (∀ r, last = some r → r.content ≠ "" →
        (process_loop registry oracle ids now maxCtx 0 i st last).1
          = r.content ++ "\n\n" ++ iteration_cap_notice)
    ∧ (last = none →
        (process_loop registry oracle ids now maxCtx 0 i st last).1
          = iteration_cap_notice)
    ∧ (process_loop registry oracle ids now maxCtx 0 i st last).2.messages
        = st.messages
          ++ [assistantMsg (process_loop registry oracle ids now maxCtx 0 i st last).1 none] := by
  cases last with
  | none =>
    refine ⟨?_, ?_, ?_, ?_⟩
    · rw [process_loop]
      dsimp only
      rw [show iteration_cap_notice = "" ++ iteration_cap_notice from rfl]
      exact strEndsWith_append _ _
    · intro r hr
      cases hr
    · intro _
      rfl
    · rfl
  | some r =>
    by_cases hc : r.content = ""
    · refine ⟨?_, ?_, ?_, ?_⟩
      · rw [process_loop]
        dsimp only
        rw [if_neg (by simp [hc])]
        rw [show iteration_cap_notice = "" ++ iteration_cap_notice from rfl]
        exact strEndsWith_append _ _
      · intro r2 hr2 hne
        rw [Option.some_inj.mp hr2] at hc
        exact absurd hc hne
      · intro h
        cases h
      · rw [process_loop]
    · refine ⟨?_, ?_, ?_, ?_⟩
      · rw [process_loop]
        dsimp only
        rw [if_pos (by simp [hc])]
        exact strEndsWith_append _ _
      · intro r2 hr2 _
        rw [← Option.some_inj.mp hr2]
        rw [process_loop]
        dsimp only
        rw [if_pos (by simp [hc])]
      · intro h
        cases h
      · rw [process_loop]


/-- Witness for the amended C3 at a concrete cap exit. -/
theorem iteration_cap_appends_notice_suffix_witness :
    (w3_response.content ≠ "")
    ∧ (process_loop { tools := [] } c3_oracle (fun _ => "a0") 0 50 0 3 w3_st
        (some w3_response)).1
      = w3_response.content ++ "\n\n" ++ iteration_cap_notice
    ∧ strEndsWith (process_loop { tools := [] } c3_oracle (fun _ => "a0") 0 50 0 3
        w3_st (some w3_response)).1 iteration_cap_notice = true :=
  ⟨by decide,
   (iteration_cap_appends_notice_suffix { tools := [] } c3_oracle (fun _ => "a0")
     0 50 3 w3_st (some w3_response)).2.1 w3_response rfl (by decide),
   (iteration_cap_appends_notice_suffix { tools := [] } c3_oracle (fun _ => "a0")
     0 50 3 w3_st (some w3_response)).1⟩

end IIAgent

namespace IIAgent

theorem needs_approval_congr (m m2 : ApprovalManager) (n : String)
    (h1 : m.risk_map = m2.risk_map)
    (h2 : m.approval_required = m2.approval_required) :
    m.needs_approval n = m2.needs_approval n := by
  unfold ApprovalManager.needs_approval ApprovalManager.get_risk_level
  rw [h1, h2]

theorem needs_approval_dangerous (m : ApprovalManager) (n : String)
    (h : m.needs_approval n = true) :
    m.get_risk_level n = RiskLevel.dangerous := by
  unfold ApprovalManager.needs_approval at h
  by_cases hreq : m.approval_required
  · rw [if_neg (by simp [hreq])] at h
    exact eq_of_beq h
  · rw [if_pos (by simp [hreq])] at h
    cases h

theorem handle_mgr_risk (registry : ToolRegistry) (ids : Nat → String)
    (now : Nat) (st : LoopState) (tc : ToolCall) :
    (handle_tool_call registry ids now st tc).mgr.risk_map = st.mgr.risk_map := by
  unfold handle_tool_call
  split <;> rfl

theorem handle_mgr_req (registry : ToolRegistry) (ids : Nat → String)
    (now : Nat) (st : LoopState) (tc : ToolCall) :
    (handle_tool_call registry ids now st tc).mgr.approval_required
      = st.mgr.approval_required := by
  unfold handle_tool_call
  split <;> rfl

theorem handle_created_le (registry : ToolRegistry) (ids : Nat → String)
    (now : Nat) (st : LoopState) (tc : ToolCall) :
    st.created ≤ (handle_tool_call registry ids now st tc).created := by
  unfold handle_tool_call
  split
  · exact Nat.le_succ _
  · exact Nat.le_refl _

theorem handle_events_extend (registry : ToolRegistry) (ids : Nat → String)
    (now : Nat) (st : LoopState) (tc : ToolCall) :
    ∃ new, (handle_tool_call registry ids now st tc).events
      = st.events ++ new := by
  unfold handle_tool_call
  split
  · exact ⟨_, rfl⟩
  · exact ⟨_, rfl⟩

theorem handle_msgs_extend (registry : ToolRegistry) (ids : Nat → String)
    (now : Nat) (st : LoopState) (tc : ToolCall) :
    ∃ new, (handle_tool_call registry ids now st tc).messages
      = st.messages ++ new := by
  unfold handle_tool_call
  split
  · exact ⟨_, rfl⟩
  · exact ⟨_, rfl⟩

theorem fold_mgr_risk (registry : ToolRegistry) (ids : Nat → String) (now : Nat) :
    ∀ (tcs : List ToolCall) (st : LoopState),
    (tcs.foldl (handle_tool_call registry ids now) st).mgr.risk_map
      = st.mgr.risk_map := by
  intro tcs
  induction tcs with
  | nil => intro st; rfl
  | cons tc rest ih =>
    intro st
    rw [List.foldl_cons, ih, handle_mgr_risk]

theorem fold_mgr_req (registry : ToolRegistry) (ids : Nat → String) (now : Nat) :
    ∀ (tcs : List ToolCall) (st : LoopState),
    (tcs.foldl (handle_tool_call registry ids now) st).mgr.approval_required
      = st.mgr.approval_required := by
  intro tcs
  induction tcs with
  | nil => intro st; rfl
  | cons tc rest ih =>
    intro st
    rw [List.foldl_cons, ih, handle_mgr_req]

theorem fold_events_extend (registry : ToolRegistry) (ids : Nat → String)
    (now : Nat) :
    ∀ (tcs : List ToolCall) (st : LoopState),
    ∃ new, (tcs.foldl (handle_tool_call registry ids now) st).events
      = st.events ++ new := by
  intro tcs
  induction tcs with
  | nil => intro st; exact ⟨[], (List.append_nil _).symm⟩
  | cons tc rest ih =>
    intro st
    rw [List.foldl_cons]
    obtain ⟨n1, h1⟩ := handle_events_extend registry ids now st tc
    obtain ⟨n2, h2⟩ := ih (handle_tool_call registry ids now st tc)
    exact ⟨n1 ++ n2, by rw [h2, h1, List.append_assoc]⟩

theorem fold_msgs_extend (registry : ToolRegistry) (ids : Nat → String)
    (now : Nat) :
    ∀ (tcs : List ToolCall) (st : LoopState),
    ∃ new, (tcs.foldl (handle_tool_call registry ids now) st).messages
      = st.messages ++ new := by
  intro tcs
  induction tcs with
  | nil => intro st; exact ⟨[], (List.append_nil _).symm⟩
  | cons tc rest ih =>
    intro st
    rw [List.foldl_cons]
    obtain ⟨n1, h1⟩ := handle_msgs_extend registry ids now st tc
    obtain ⟨n2, h2⟩ := ih (handle_tool_call registry ids now st tc)
    exact ⟨n1 ++ n2, by rw [h2, h1, List.append_assoc]⟩

end IIAgent

namespace IIAgent

theorem fold_no_exec (registry : ToolRegistry) (ids : Nat → String) (now : Nat)
    (n : String) :
    ∀ (tcs : List ToolCall) (st : LoopState),
    st.mgr.needs_approval n = true →
    (∀ args, AgentEvent.tool_exec n args ∉ st.events) →
    ∀ args, AgentEvent.tool_exec n args
      ∉ (tcs.foldl (handle_tool_call registry ids now) st).events := by
  intro tcs
  induction tcs with
  | nil =>
    intro st _ hne args
    exact hne args
  | cons tc rest ih =>
    intro st hna hne args
    rw [List.foldl_cons]
    apply ih
    · rw [needs_approval_congr _ st.mgr n (handle_mgr_risk registry ids now st tc)
        (handle_mgr_req registry ids now st tc)]
      exact hna
    · intro args2
      by_cases happ : st.mgr.needs_approval tc.name = true
      · simp only [handle_tool_call, happ, if_pos]
        intro hmem
        rcases List.mem_append.mp hmem with hold | hnew
        · exact hne args2 hold
        · simp at hnew
      · have hne2 : tc.name ≠ n := by
          intro hh
          rw [hh] at happ
          exact happ hna
        simp only [handle_tool_call, happ, Bool.false_eq_true, if_false]
        intro hmem
        rcases List.mem_append.mp hmem with hold | hnew
        · exact hne args2 hold
        · simp at hnew
          exact hne2 hnew.1.symm

theorem llm_called_no_exec (st : LoopState) (n : String)
    (hne : ∀ args, AgentEvent.tool_exec n args ∉ st.events) :
    ∀ args, AgentEvent.tool_exec n args ∉ (llm_called st).events := by
  intro args hmem
  rcases List.mem_append.mp hmem with hold | hnew
  · exact hne args hold
  · simp at hnew

theorem run_tool_phase_needs_approval (registry : ToolRegistry)
    (ids : Nat → String) (now : Nat) (st : LoopState) (r : LLMResponse)
    (n : String) :
    (run_tool_phase registry ids now st r).mgr.needs_approval n
      = st.mgr.needs_approval n := by
  unfold run_tool_phase
  dsimp only
  rw [needs_approval_congr _ st.mgr n
    (fold_mgr_risk registry ids now r.tool_calls
      { st with messages := st.messages ++ [assistantMsg r.content (some r.tool_calls)] })
    (fold_mgr_req registry ids now r.tool_calls
      { st with messages := st.messages ++ [assistantMsg r.content (some r.tool_calls)] })]

theorem run_tool_phase_no_exec (registry : ToolRegistry) (ids : Nat → String)
    (now : Nat) (st : LoopState) (r : LLMResponse) (n : String)
    (hna : st.mgr.needs_approval n = true)
    (hne : ∀ args, AgentEvent.tool_exec n args ∉ st.events) :
    ∀ args, AgentEvent.tool_exec n args
      ∉ (run_tool_phase registry ids now st r).events := by
  unfold run_tool_phase
  dsimp only
  exact fold_no_exec registry ids now n r.tool_calls _ hna hne

theorem run_tool_phase_events_extend (registry : ToolRegistry)
    (ids : Nat → String) (now : Nat) (st : LoopState) (r : LLMResponse) :
    ∃ new, (run_tool_phase registry ids now st r).events = st.events ++ new := by
  unfold run_tool_phase
  dsimp only
  exact fold_events_extend registry ids now r.tool_calls _

theorem process_loop_no_exec (registry : ToolRegistry)
    (oracle : Nat → Except String LLMResponse) (ids : Nat → String)
    (now maxCtx : Nat) (n : String) :
    ∀ (fuel i : Nat) (st : LoopState) (last : Option LLMResponse),
    st.mgr.needs_approval n = true →
    (∀ args, AgentEvent.tool_exec n args ∉ st.events) →
    ∀ args, AgentEvent.tool_exec n args
      ∉ (process_loop registry oracle ids now maxCtx fuel i st last).2.events := by
  intro fuel
  induction fuel with
  | zero =>
    intro i st last _ hne args
    rw [process_loop.eq_def]
    dsimp only
    exact hne args
  | succ fuel ih =>
    intro i st last hna hne args
    rw [process_loop.eq_def]
    dsimp only
    cases horacle : oracle i with
    | error e =>
      dsimp only
      exact llm_called_no_exec st n hne args
    | ok r =>
      dsimp only
      by_cases hemp : r.tool_calls.isEmpty
      · rw [if_pos hemp]
        exact llm_called_no_exec st n hne args
      · rw [if_neg hemp]
        show AgentEvent.tool_exec n args
          ∉ (process_loop registry oracle ids now maxCtx fuel (i + 1)
              (run_tool_phase registry ids now (llm_called st) r) (some r)).2.events
        apply ih
        · rw [run_tool_phase_needs_approval]
          exact hna
        · exact run_tool_phase_no_exec registry ids now (llm_called st) r n hna
            (llm_called_no_exec st n hne)

theorem countLlm_append (a b : List AgentEvent) :
    countLlmCalls (a ++ b) = countLlmCalls a + countLlmCalls b := by
  unfold countLlmCalls
  rw [List.filter_append, List.length_append]

theorem llm_called_count (st : LoopState) :
    countLlmCalls (llm_called st).events = countLlmCalls st.events + 1 := by
  unfold llm_called
  rw [countLlm_append]
  rfl

theorem process_loop_events_extend (registry : ToolRegistry)
    (oracle : Nat → Except String LLMResponse) (ids : Nat → String)
    (now maxCtx : Nat) :
    ∀ (fuel i : Nat) (st : LoopState) (last : Option LLMResponse),
    ∃ new, (process_loop registry oracle ids now maxCtx fuel i st last).2.events
      = st.events ++ new := by
  intro fuel
  induction fuel with
  | zero =>
    intro i st last
    rw [process_loop.eq_def]
    dsimp only
    exact ⟨[], (List.append_nil _).symm⟩
  | succ fuel ih =>
    intro i st last
    rw [process_loop.eq_def]
    dsimp only
    cases horacle : oracle i with
    | error e =>
      dsimp only
      exact ⟨_, rfl⟩
    | ok r =>
      dsimp only
      by_cases hemp : r.tool_calls.isEmpty
      · rw [if_pos hemp]
        exact ⟨_, rfl⟩
      · rw [if_neg hemp]
        show ∃ new, (process_loop registry oracle ids now maxCtx fuel (i + 1)
            (run_tool_phase registry ids now (llm_called st) r) (some r)).2.events
          = st.events ++ new
        obtain ⟨n2, h2⟩ := ih (i + 1)
          (run_tool_phase registry ids now (llm_called st) r) (some r)
        obtain ⟨n1, h1⟩ := run_tool_phase_events_extend registry ids now
          (llm_called st) r
        rw [h1] at h2
        refine ⟨[AgentEvent.llm_call st.messages] ++ n1 ++ n2, ?_⟩
        rw [h2]
        show ((llm_called st).events ++ n1) ++ n2 = _
        unfold llm_called
        simp [List.append_assoc]

theorem process_loop_llm_ge_one (registry : ToolRegistry)
    (oracle : Nat → Except String LLMResponse) (ids : Nat → String)
    (now maxCtx : Nat) (fuel i : Nat) (st : LoopState)
    (last : Option LLMResponse) :
    countLlmCalls st.events + 1
      ≤ countLlmCalls
          (process_loop registry oracle ids now maxCtx (fuel + 1) i st last).2.events := by
  rw [process_loop.eq_def]
  dsimp only
  cases horacle : oracle i with
  | error e =>
    dsimp only
    rw [llm_called_count]
  | ok r =>
    dsimp only
    by_cases hemp : r.tool_calls.isEmpty
    · rw [if_pos hemp]
      dsimp only
      rw [llm_called_count]
    · rw [if_neg hemp]
      show countLlmCalls st.events + 1
        ≤ countLlmCalls (process_loop registry oracle ids now maxCtx fuel (i + 1)
            (run_tool_phase registry ids now (llm_called st) r) (some r)).2.events
      obtain ⟨n2, h2⟩ := process_loop_events_extend registry oracle ids now maxCtx
        fuel (i + 1) (run_tool_phase registry ids now (llm_called st) r) (some r)
      obtain ⟨n1, h1⟩ := run_tool_phase_events_extend registry ids now
        (llm_called st) r
      rw [h2, h1, countLlm_append, countLlm_append, llm_called_count]
      omega

end IIAgent

namespace IIAgent

theorem listContainsSeq_of_startsWith (l pat : List Char)
    (h : listStartsWith l pat = true) : listContainsSeq pat l = true := by
  cases l with
  | nil => exact h
  | cons c cs =>
    show (listStartsWith (c :: cs) pat || listContainsSeq pat cs) = true
    rw [h]
    rfl

theorem listContainsSeq_append_right (pat : List Char) :
    ∀ (l1 l2 : List Char), listContainsSeq pat l2 = true →
    listContainsSeq pat (l1 ++ l2) = true := by
  intro l1
  induction l1 with
  | nil => intro l2 h; exact h
  | cons c cs ih =>
    intro l2 h
    show (listStartsWith (c :: (cs ++ l2)) pat || listContainsSeq pat (cs ++ l2)) = true
    rw [ih l2 h]
    simp

theorem strContains_append_mid (S T pat : String) :
    strContains ((S ++ pat) ++ T) pat = true := by
  unfold strContains
  rw [String.data_append, String.data_append, List.append_assoc]
  apply listContainsSeq_append_right
  apply listContainsSeq_of_startsWith
  exact listStartsWith_append_self _ _

theorem approval_text_contains_id (x : String) :
    strContains (approval_result_text x) x = true := by
  unfold approval_result_text
  exact strContains_append_mid _ _ _

theorem fold_pending_preserved (registry : ToolRegistry) (ids : Nat → String)
    (now : Nat) (hids : Function.Injective ids) (k : String)
    (v : PendingApproval) (c0 : Nat) (hk : k = ids c0) :
    ∀ (tcs : List ToolCall) (st : LoopState),
    c0 < st.created →
    lookupA st.mgr.pending k = some v →
    c0 < (tcs.foldl (handle_tool_call registry ids now) st).created
    ∧ lookupA (tcs.foldl (handle_tool_call registry ids now) st).mgr.pending k
        = some v := by
  intro tcs
  induction tcs with
  | nil =>
    intro st hc hl
    exact ⟨hc, hl⟩
  | cons tc rest ih =>
    intro st hc hl
    rw [List.foldl_cons]
    have hstep : c0 < (handle_tool_call registry ids now st tc).created
        ∧ lookupA (handle_tool_call registry ids now st tc).mgr.pending k
          = some v := by
      by_cases happ : st.mgr.needs_approval tc.name = true
      · constructor
        · simp only [handle_tool_call, happ, if_pos]
          omega
        · simp only [handle_tool_call, happ, if_pos]
          dsimp only [ApprovalManager.create_approval_request]
          rw [hk, lookupA_dictSet_other]
          · rw [← hk]
            exact hl
          · intro hh
            have := hids hh
            omega
      · constructor
        · simp only [handle_tool_call, happ, Bool.false_eq_true, if_false]
          exact hc
        · simp only [handle_tool_call, happ, Bool.false_eq_true, if_false]
          exact hl
    exact ih _ hstep.1 hstep.2

theorem handle_creates_approval (registry : ToolRegistry) (ids : Nat → String)
    (now : Nat) (st : LoopState) (tc : ToolCall)
    (happ : st.mgr.needs_approval tc.name = true) :
    ∃ a : PendingApproval,
      a.id = ids st.created
      ∧ a.tool_name = tc.name
      ∧ a.risk_level = RiskLevel.dangerous
      ∧ (handle_tool_call registry ids now st tc).created = st.created + 1
      ∧ lookupA (handle_tool_call registry ids now st tc).mgr.pending a.id
          = some a
      ∧ AgentEvent.approval_created a
          ∈ (handle_tool_call registry ids now st tc).events
      ∧ toolMsg tc.id (approval_result_text a.id) tc.name
          ∈ (handle_tool_call registry ids now st tc).messages := by
  refine ⟨(st.mgr.create_approval_request (ids st.created) tc.name
      tc.arguments "" now).2, rfl, rfl, ?_, ?_, ?_, ?_, ?_⟩
  · show st.mgr.get_risk_level tc.name = RiskLevel.dangerous
    exact needs_approval_dangerous _ _ happ
  · simp only [handle_tool_call, happ, if_pos]
  · simp only [handle_tool_call, happ, if_pos]
    exact lookupA_dictSet_self _ _ _
  · simp only [handle_tool_call, happ, if_pos]
    exact List.mem_append_right _ (List.mem_singleton_self _)
  · simp only [handle_tool_call, happ, if_pos]
    exact List.mem_append_right _ (List.mem_singleton_self _)

theorem fold_mem_events (registry : ToolRegistry) (ids : Nat → String)
    (now : Nat) (tcs : List ToolCall) (st : LoopState) (e : AgentEvent)
    (he : e ∈ st.events) :
    e ∈ (tcs.foldl (handle_tool_call registry ids now) st).events := by
  obtain ⟨new, h⟩ := fold_events_extend registry ids now tcs st
  rw [h]
  exact List.mem_append_left _ he

theorem fold_mem_msgs (registry : ToolRegistry) (ids : Nat → String)
    (now : Nat) (tcs : List ToolCall) (st : LoopState) (m : LLMMessage)
    (hm : m ∈ st.messages) :
    m ∈ (tcs.foldl (handle_tool_call registry ids now) st).messages := by
  obtain ⟨new, h⟩ := fold_msgs_extend registry ids now tcs st
  rw [h]
  exact List.mem_append_left _ hm

theorem fold_creates_approval (registry : ToolRegistry) (ids : Nat → String)
    (now : Nat) (hids : Function.Injective ids) (tcs : List ToolCall)
    (tc : ToolCall) (st : LoopState) (htc : tc ∈ tcs)
    (happ : st.mgr.needs_approval tc.name = true) :
    ∃ a : PendingApproval,
      a.tool_name = tc.name
      ∧ a.risk_level = RiskLevel.dangerous
      ∧ lookupA (tcs.foldl (handle_tool_call registry ids now) st).mgr.pending
          a.id = some a
      ∧ AgentEvent.approval_created a
          ∈ (tcs.foldl (handle_tool_call registry ids now) st).events
      ∧ toolMsg tc.id (approval_result_text a.id) tc.name
          ∈ (tcs.foldl (handle_tool_call registry ids now) st).messages := by
  obtain ⟨l1, l2, rfl⟩ := List.append_of_mem htc
  rw [List.foldl_append, List.foldl_cons]
  have happA : (l1.foldl (handle_tool_call registry ids now) st).mgr.needs_approval
      tc.name = true := by
    rw [needs_approval_congr _ st.mgr tc.name
      (fold_mgr_risk registry ids now l1 st) (fold_mgr_req registry ids now l1 st)]
    exact happ
  obtain ⟨a, ha_id, ha_tool, ha_risk, ha_created, ha_look, ha_ev, ha_msg⟩ :=
    handle_creates_approval registry ids now
      (l1.foldl (handle_tool_call registry ids now) st) tc happA
  refine ⟨a, ha_tool, ha_risk, ?_, ?_, ?_⟩
  · have := fold_pending_preserved registry ids now hids a.id a
      (l1.foldl (handle_tool_call registry ids now) st).created ha_id l2
      (handle_tool_call registry ids now
        (l1.foldl (handle_tool_call registry ids now) st) tc)
      (by rw [ha_created]; omega) ha_look
    exact this.2
  · exact fold_mem_events registry ids now l2 _ _ ha_ev
  · exact fold_mem_msgs registry ids now l2 _ _ ha_msg

end IIAgent

namespace IIAgent

/-- C2: for every tool call of an LLM response whose tool the gate classifies
as needing approval (given an injective uuid supply), the iteration creates a
`PendingApproval` with risk dangerous registered in the manager, appends a
tool-role message carrying that tool call\x27s id whose content quotes the
approval id, never invokes the tool\x27s execute anywhere in the run, and the
loop proceeds to the remaining tool calls and then to the next gateway call
(at least two gateway calls are recorded) instead of blocking. -/
theorem approval_gated_tool_call (registry : ToolRegistry)
    (oracle : Nat → Except String LLMResponse) (ids : Nat → String)
    (hids : Function.Injective ids) (now maxCtx fuel i : Nat) (st : LoopState)
    (last : Option LLMResponse) (r : LLMResponse) (tc : ToolCall)
    (hresp : oracle i = Except.ok r) (htc : tc ∈ r.tool_calls)
    (happr : st.mgr.needs_approval tc.name = true)
    (hnoexec : ∀ args, AgentEvent.tool_exec tc.name args ∉ st.events) :
    (∃ a : PendingApproval,
      a.tool_name = tc.name
      ∧ a.risk_level = RiskLevel.dangerous
      ∧ lookupA (run_tool_phase registry ids now (llm_called st) r).mgr.pending
          a.id = some a
      ∧ AgentEvent.approval_created a
          ∈ (run_tool_phase registry ids now (llm_called st) r).events
      ∧ ∃ m ∈ (run_tool_phase registry ids now (llm_called st) r).messages,
          m.role = "tool" ∧ m.tool_call_id = some tc.id
          ∧ m.content = approval_result_text a.id
          ∧ strContains m.content a.id = true)
    ∧ process_loop registry oracle ids now maxCtx (fuel + 2) i st last
        = process_loop registry oracle ids now maxCtx (fuel + 1) (i + 1)
            (run_tool_phase registry ids now (llm_called st) r) (some r)
    ∧ (∀ args, AgentEvent.tool_exec tc.name args
        ∉ (process_loop registry oracle ids now maxCtx (fuel + 2) i st last).2.events)
    ∧ countLlmCalls st.events + 2
        ≤ countLlmCalls
            (process_loop registry oracle ids now maxCtx (fuel + 2) i st last).2.events := by
  have hemp : r.tool_calls.isEmpty = false := by
    cases h : r.tool_calls with
    | nil => rw [h] at htc; cases htc
    | cons x xs => rfl
  have hstep : process_loop registry oracle ids now maxCtx (fuel + 2) i st last
      = process_loop registry oracle ids now maxCtx (fuel + 1) (i + 1)
          (run_tool_phase registry ids now (llm_called st) r) (some r) := by
    rw [process_loop.eq_def]
    dsimp only
    rw [hresp]
    dsimp only
    rw [if_neg (by rw [hemp]; simp)]
  refine ⟨?_, hstep, ?_, ?_⟩
  · obtain ⟨a, ha_tool, ha_risk, ha_look, ha_ev, ha_msg⟩ :=
      fold_creates_approval registry ids now hids r.tool_calls tc
        { llm_called st with
            messages := (llm_called st).messages
              ++ [assistantMsg r.content (some r.tool_calls)] }
        htc happr
    refine ⟨a, ha_tool, ha_risk, ha_look, ha_ev,
      toolMsg tc.id (approval_result_text a.id) tc.name, ha_msg,
      rfl, rfl, rfl, approval_text_contains_id a.id⟩
  · exact process_loop_no_exec registry oracle ids now maxCtx tc.name
      (fuel + 2) i st last happr hnoexec
  · rw [hstep]
    have h1 := process_loop_llm_ge_one registry oracle ids now maxCtx fuel (i + 1)
      (run_tool_phase registry ids now (llm_called st) r) (some r)
    obtain ⟨n1, hext⟩ := run_tool_phase_events_extend registry ids now
      (llm_called st) r
    rw [hext, countLlm_append, llm_called_count] at h1
    omega

end IIAgent

namespace IIAgent

/-- The witness id supply is injective. -/
theorem w2_ids_injective : Function.Injective w2_ids := by
  intro a b h
  have h2 : List.replicate a 'a' = List.replicate b 'a' := congrArg String.data h
  have h3 := congrArg List.length h2
  simpa using h3

/-- Witness for C2: a dangerous `run_command` call on the default risk map. -/
theorem approval_gated_tool_call_witness :
    ({} : ApprovalManager).needs_approval "run_command" = true
    ∧ (∃ a : PendingApproval,
        a.tool_name = w2_tc.name
        ∧ a.risk_level = RiskLevel.dangerous
        ∧ lookupA (run_tool_phase { tools := [] } w2_ids 0 (llm_called w2_st)
            w2_resp).mgr.pending a.id = some a
        ∧ AgentEvent.approval_created a
            ∈ (run_tool_phase { tools := [] } w2_ids 0 (llm_called w2_st)
                w2_resp).events
        ∧ ∃ m ∈ (run_tool_phase { tools := [] } w2_ids 0 (llm_called w2_st)
              w2_resp).messages,
            m.role = "tool" ∧ m.tool_call_id = some w2_tc.id
            ∧ m.content = approval_result_text a.id
            ∧ strContains m.content a.id = true)
    ∧ countLlmCalls w2_st.events + 2
        ≤ countLlmCalls
            (process_loop { tools := [] } w2_oracle w2_ids 0 50 2 0 w2_st
              none).2.events
    ∧ (∀ args, AgentEvent.tool_exec "run_command" args
        ∉ (process_loop { tools := [] } w2_oracle w2_ids 0 50 2 0 w2_st
            none).2.events) :=
  ⟨by decide,
   (approval_gated_tool_call { tools := [] } w2_oracle w2_ids w2_ids_injective
     0 50 0 0 w2_st none w2_resp w2_tc rfl (List.mem_singleton_self _)
     (by decide) (fun args h => List.not_mem_nil _ h)).1,
   (approval_gated_tool_call { tools := [] } w2_oracle w2_ids w2_ids_injective
     0 50 0 0 w2_st none w2_resp w2_tc rfl (List.mem_singleton_self _)
     (by decide) (fun args h => List.not_mem_nil _ h)).2.2.2,
   (approval_gated_tool_call { tools := [] } w2_oracle w2_ids w2_ids_injective
     0 50 0 0 w2_st none w2_resp w2_tc rfl (List.mem_singleton_self _)
     (by decide) (fun args h => List.not_mem_nil _ h)).2.2.1⟩

end IIAgent
